import Mathlib

/-!
Verification development for the invoice bundle builder repository
(two source variants: `src/App.js` and `src/invoice-record-2.js`).

The JavaScript sources are shallowly embedded below.  Numbers are
modelled as exact rationals (the sources use IEEE doubles; every claim
is settled on inputs where the two agree), strings as Lean strings,
and the random `uuidv4` supply as an explicit identifier-supply
function passed with the inputs.  Presentation-only resource fields
(narrative `text`, `meta.profile`, codings) that no claim touches are
omitted from the resource records; every field a claim mentions is
kept, with the exact construction used by the source.
-/

set_option maxHeartbeats 1000000

/- ------------------------------------------------------------------
   Digit and string utilities shared by both variants
   ------------------------------------------------------------------ -/

/-- Character used by the model for decimal digit `n` (`n ≤ 9`; larger
inputs clamp to `9`, a case never reached). -/
def digChar (n : ℕ) : Char :=
  match n with
  | 0 => '0' | 1 => '1' | 2 => '2' | 3 => '3' | 4 => '4'
  | 5 => '5' | 6 => '6' | 7 => '7' | 8 => '8' | _ => '9'

/-- Numeric value of a decimal digit character. -/
def charVal (c : Char) : ℕ := c.toNat - 48

/-- Little-endian decimal digits of a natural number. -/
def natDigitsLE (n : ℕ) : List Char :=
  if _ : n < 10 then [digChar n]
  else digChar (n % 10) :: natDigitsLE (n / 10)
termination_by n
decreasing_by exact Nat.div_lt_self (by omega) (by omega)

/-- Usual (big-endian) decimal digit string of a natural number. -/
def natRepr (n : ℕ) : List Char := (natDigitsLE n).reverse

/-- Value of a big-endian digit string. -/
def digitsVal (cs : List Char) : ℕ := cs.foldl (fun a c => 10 * a + charVal c) 0

/-- Little-endian value of a digit string (proof helper). -/
def valLE : List Char → ℕ
  | [] => 0
  | c :: cs => charVal c + 10 * valLE cs

/-- Whitespace characters stripped by JavaScript string trimming. -/
def isWs (c : Char) : Bool := c == ' ' || c == '\t' || c == '\n' || c == '\r'

/-- Models `String.prototype.trim` on the character list. -/
def jsTrim (cs : List Char) : List Char :=
  ((cs.dropWhile isWs).reverse.dropWhile isWs).reverse

/-- Models `String.prototype.trim`. -/
def jsStrTrim (s : String) : String := String.mk (jsTrim s.toList)

/-- Models `String.prototype.padStart(2, "0")` as used on date parts. -/
def padStart2 (s : List Char) : List Char :=
  if 2 ≤ s.length then s else List.replicate (2 - s.length) '0' ++ s

/-- Models the regular expression `/^\d{4}-\d{2}-\d{2}$/` both sources
test dates against. -/
def isIsoDateShape (cs : List Char) : Bool :=
  match cs with
  | [a, b, c, d, e, f, g, h, i, j] =>
    a.isDigit && b.isDigit && c.isDigit && d.isDigit && (e == '-') &&
      f.isDigit && g.isDigit && (h == '-') && i.isDigit && j.isDigit
  | _ => false

/-- Models `String.prototype.split` with a one-character separator
(`"a--b".split("-") = ["a", "", "b"]`, `"".split("-") = [""]`). -/
def splitOnChar (sep : Char) : List Char → List (List Char)
  | [] => [[]]
  | c :: cs =>
    if c = sep then [] :: splitOnChar sep cs
    else
      match splitOnChar sep cs with
      | [] => [[c]]
      | p :: ps => (c :: p) :: ps

/- ------------------------------------------------------------------
   JavaScript numbers: the results of `Number(string)` and `toFixed(2)`
   ------------------------------------------------------------------ -/

/-- Result of a JavaScript numeric conversion: `NaN`, a signed
infinity, or a finite value (modelled as an exact rational). -/
inductive JsNum where
  | nan : JsNum
  | inf (neg : Bool) : JsNum
  | fin (val : ℚ) : JsNum
deriving DecidableEq

/-- Reads an optional leading sign; returns whether it was `-` and the
rest of the input. -/
def readSign : List Char → Bool × List Char
  | [] => (false, [])
  | c :: cs =>
    if c = '-' then (true, cs)
    else if c = '+' then (false, cs)
    else (false, c :: cs)

/-- Parses an optional exponent part after the mantissa value `v`;
anything left over that is not a well-formed exponent gives `NaN`. -/
def parseExpPart (v : ℚ) : List Char → JsNum
  | [] => .fin v
  | c :: cs =>
    if c = 'e' ∨ c = 'E' then
      let p := readSign cs
      let q := p.2.span Char.isDigit
      if q.1 = [] ∨ q.2 ≠ [] then .nan
      else .fin (if p.1 then v / (10 : ℚ) ^ digitsVal q.1 else v * (10 : ℚ) ^ digitsVal q.1)
    else .nan

/-- Fraction step of the decimal-literal parse: integer digits `ip`,
fraction digits `fp`, remaining input `r3`. -/
def parseFracCore (ip fp r3 : List Char) : JsNum :=
  if ip = [] ∧ fp = [] then .nan
  else parseExpPart ((digitsVal ip : ℚ) + (digitsVal fp : ℚ) / (10 : ℚ) ^ fp.length) r3

/-- Continuation of the decimal-literal parse after the leading digit
run `ip` has been taken. -/
def parseDecimalCore (ip : List Char) : List Char → JsNum
  | c :: r2 =>
    if c = '.' then parseFracCore ip (r2.span Char.isDigit).1 (r2.span Char.isDigit).2
    else if ip = [] then .nan else parseExpPart (digitsVal ip : ℚ) (c :: r2)
  | [] => if ip = [] then .nan else parseExpPart (digitsVal ip : ℚ) []

/-- Parses an unsigned decimal literal (`digits`, `digits.digits`,
`.digits`, optional exponent). -/
def parseDecimal (cs : List Char) : JsNum :=
  parseDecimalCore (cs.span Char.isDigit).1 (cs.span Char.isDigit).2

/-- Models the ECMAScript `Number(string)` conversion: trims
whitespace, maps the empty string to `0`, accepts `Infinity` with an
optional sign and decimal literals with optional fraction and
exponent; everything else is `NaN`.  (Hexadecimal, octal and binary
literal forms are not modelled; no claim involves them, and on all
other strings the model agrees with the host conversion.) -/
def jsNumber (s : String) : JsNum :=
  let cs := jsTrim s.toList
  if cs = [] then .fin 0
  else
    let p := readSign cs
    if p.2 = "Infinity".toList then .inf p.1
    else
      match parseDecimal p.2 with
      | .nan => .nan
      | .inf b => .inf b
      | .fin q => .fin (if p.1 then -q else q)

/-- Integer `round(100 * q)` with ECMAScript `toFixed` tie behaviour:
the sign is split off first, then ties round up (away from zero). -/
def toFixed2Int (q : ℚ) : ℤ :=
  if q < 0 then -⌊100 * (-q) + 1 / 2⌋ else ⌊100 * q + 1 / 2⌋

/-- Models `Number(x.toFixed(2))` on a finite value: exact rounding of
the rational to two decimal places. -/
def toFixed2 (q : ℚ) : ℚ := (toFixed2Int q : ℚ) / 100

/-- Digit rendering used by `toFixed(2)` for a non-negative value. -/
def toFixed2StrNN (q : ℚ) : List Char :=
  let n := (⌊100 * q + 1 / 2⌋).toNat
  natRepr (n / 100) ++ '.' :: [digChar (n % 100 / 10), digChar (n % 100 % 10)]

/-- Models the string `x.toFixed(2)` (sign split off first, as in the
ECMAScript specification). -/
def toFixed2Str (q : ℚ) : String :=
  if q < 0 then String.mk ('-' :: toFixed2StrNN (-q)) else String.mk (toFixed2StrNN q)

/-- Models `Number(x.toFixed(2))` on an arbitrary JavaScript number:
`NaN` and the infinities render to strings that convert back to
themselves. -/
def jsFix2 : JsNum → JsNum
  | .fin q => .fin (toFixed2 q)
  | x => x

/- ------------------------------------------------------------------
   Shared input shapes: patient records and raw health-address entries
   ------------------------------------------------------------------ -/

/-- One raw entry of a patient's health-address list as the sources
receive it: `null`-ish, a bare string, or an object carrying an
optional `address` field, an `isPrimary` flag, and (for the fallback
branches) its `JSON.stringify` rendering. -/
inductive AbhaRaw where
  | jsNull : AbhaRaw
  | str (s : String) : AbhaRaw
  | obj (address : Option String) (isPrimary : Bool) (stringified : String) : AbhaRaw
deriving DecidableEq

/-- The externally supplied patient record, with the fields both
sources read.  `additional_abha` models
`additional_attributes.abha_addresses` (when present and an array);
`abha_addresses` the top-level fallback list read only by `App.js`. -/
structure Patient where
  name : Option String := none
  gender : Option String := none
  dob : Option String := none
  mobile : Option String := none
  email : Option String := none
  address : Option String := none
  user_ref_id : Option String := none
  mrn : Option String := none
  abha_ref : Option String := none
  id : Option String := none
  additional_abha : Option (List AbhaRaw) := none
  abha_addresses : Option (List AbhaRaw) := none
deriving DecidableEq

/-- A coerced health address as produced by `normalizeAbhaAddresses`. -/
structure NormalizedAddress where
  value : String
  label : String
  primary : Bool
deriving DecidableEq

/- ------------------------------------------------------------------
   FHIR resource projection shared by both variants
   ------------------------------------------------------------------ -/

namespace Fhir

/-- Money amount as emitted in `totalNet` / `totalGross`. -/
structure Money where
  value : JsNum
  currency : String
deriving DecidableEq

/-- Projection of a built FHIR resource onto the fields the claims
mention.  Reference-valued fields hold the literal `urn:uuid:<id>`
reference strings the sources write; fields a given resource kind does
not set keep their defaults.  (Narratives, `meta.profile`, identifier
and coding blocks, and the `Invoice.lineItem` array are
presentation-only for the claims and are omitted.) -/
structure Resource where
  resourceType : String
  id : String
  status : Option String := none
  subject : Option String := none
  author : List String := []
  attester : List String := []
  encounter : Option String := none
  custodian : Option String := none
  participant : List String := []
  recipient : Option String := none
  issuer : Option String := none
  sectionEntries : List String := []
  date : Option String := none
  title : Option String := none
  name : Option String := none
  gender : Option String := none
  birthDate : Option String := none
  contentType : Option String := none
  data : Option String := none
  attachmentTitle : Option String := none
  attachmentUrl : Option String := none
  totalNet : Option Money := none
  totalGross : Option Money := none
deriving DecidableEq

/-- One bundle entry: locator plus resource. -/
structure Entry where
  fullUrl : String
  resource : Resource
deriving DecidableEq

/-- The outer bundle envelope. -/
structure Bundle where
  id : String
  type : String
  timestamp : String
  entry : List Entry
deriving DecidableEq

/-- The content-addressed reference both sources write:
`` `urn:uuid:${id}` ``. -/
def urn (id : String) : String := "urn:uuid:" ++ id

/-- Entry list contributed by one optional resource (the source pushes
`{ fullUrl, resource }` only when the resource was built). -/
def optEntry (o : Option Resource) : List Entry :=
  match o with
  | some r => [⟨urn r.id, r⟩]
  | none => []

/-- All cross-record references embedded in a resource (the
Composition's subject / author / attester / encounter / custodian /
section entries, the Invoice's subject / participant / recipient /
issuer, a DocumentReference's subject and attachment url, and an
Encounter's subject). -/
def refsOf (r : Resource) : List String :=
  r.subject.toList ++ r.author ++ r.attester ++ r.encounter.toList ++
    r.custodian.toList ++ r.participant ++ r.recipient.toList ++
    r.issuer.toList ++ r.sectionEntries ++ r.attachmentUrl.toList

end Fhir

/- ------------------------------------------------------------------
   Variant 1: `src/App.js`
   ------------------------------------------------------------------ -/

namespace AppV1

open Fhir

/-- Separator-splitting stage of `ddmmyyyyToISO` (applied after the
empty and ISO checks): split on `-` (or, failing that, `/`) and, when
that yields exactly three non-empty parts, reassemble them as
`` `${yyyy}-${mm.padStart(2, "0")}-${dd.padStart(2, "0")}` ``;
anything else gives `undefined`. -/
def ddmmSplit (s : List Char) : Option String :=
  match (if s.contains '-' then some '-' else if s.contains '/' then some '/' else none : Option Char) with
  | none => none
  | some sep =>
    match splitOnChar sep s with
    | [dd, mm, yyyy] =>
      if dd = [] ∨ mm = [] ∨ yyyy = [] then none
      else some (String.mk (yyyy ++ '-' :: padStart2 mm ++ '-' :: padStart2 dd))
    | _ => none

/-- Models `ddmmyyyyToISO` from `App.js`: empty input gives
`undefined`; the trimmed input is returned unchanged when ISO-shaped,
else handed to the separator-splitting stage. -/
def ddmmyyyyToISO (v : String) : Option String :=
  if v = "" then none
  else
    if isIsoDateShape (jsTrim v.toList) then some (String.mk (jsTrim v.toList))
    else ddmmSplit (jsTrim v.toList)

/-- Models the tiny placeholder PDF payload constant. -/
def PLACEHOLDER_PDF_B64 : String := "JVBERi0xLjQKJeLjz9MK"

/-- Coercion of one raw address entry inside `normalizeAbhaAddresses`:
falsy entries give `null`; a string becomes a non-primary entry; an
object with a truthy `address` field uses it (label gains
`" (primary)"` when `isPrimary`); other objects fall back to their
`JSON.stringify` rendering. -/
def coerceAbha : AbhaRaw → Option NormalizedAddress
  | .jsNull => none
  | .str s => if s = "" then none else some ⟨s, s, false⟩
  | .obj address isPrimary stringified =>
    match address with
    | some a =>
      if a = "" then some ⟨stringified, stringified, isPrimary⟩
      else some ⟨a, if isPrimary then a ++ " (primary)" else a, isPrimary⟩
    | none => some ⟨stringified, stringified, isPrimary⟩

/-- The raw list read by `normalizeAbhaAddresses`:
`additional_attributes.abha_addresses` when present, else the
top-level `abha_addresses`, else `[]`. -/
def rawAbhaList (p : Patient) : List AbhaRaw :=
  match p.additional_abha with
  | some l => l
  | none => p.abha_addresses.getD []

/-- Order induced by the sort comparator
`(b.primary - a.primary) || a.value.localeCompare(b.value)`:
primary entries first, ties by value (`localeCompare` modelled as
code-point order). -/
def abhaLE (a b : NormalizedAddress) : Prop :=
  (a.primary = true ∧ b.primary = false) ∨ (a.primary = b.primary ∧ a.value ≤ b.value)

instance : DecidableRel abhaLE := fun a b => by unfold abhaLE; infer_instance

instance : IsTotal NormalizedAddress abhaLE := by
  constructor
  intro a b
  rcases ha : a.primary <;> rcases hb : b.primary
  · rcases le_total a.value b.value with h | h
    · exact Or.inl (Or.inr ⟨by rw [ha, hb], h⟩)
    · exact Or.inr (Or.inr ⟨by rw [ha, hb], h⟩)
  · exact Or.inr (Or.inl ⟨hb, ha⟩)
  · exact Or.inl (Or.inl ⟨ha, hb⟩)
  · rcases le_total a.value b.value with h | h
    · exact Or.inl (Or.inr ⟨by rw [ha, hb], h⟩)
    · exact Or.inr (Or.inr ⟨by rw [ha, hb], h⟩)

instance : IsTrans NormalizedAddress abhaLE := by
  constructor
  intro a b c hab hbc
  rcases hab with ⟨ha, hb⟩ | ⟨hab, hv⟩
  · rcases hbc with ⟨hb2, hc⟩ | ⟨hbc, hv2⟩
    · exact absurd hb2 (by rw [hb]; simp)
    · exact Or.inl ⟨ha, by rw [← hbc, hb]⟩
  · rcases hbc with ⟨hb2, hc⟩ | ⟨hbc, hv2⟩
    · exact Or.inl ⟨by rw [hab, hb2], hc⟩
    · exact Or.inr ⟨by rw [hab, hbc], le_trans hv hv2⟩

/-- Models `normalizeAbhaAddresses`: coerce each raw entry, drop the
`null` results, then sort with the comparator above
(`Array.prototype.sort` is a stable sort; it is modelled by insertion
sort with respect to the induced total preorder, which computes the
same stable result). -/
def normalizeAbhaAddresses (p : Patient) : List NormalizedAddress :=
  List.insertionSort abhaLE ((rawAbhaList p).filterMap coerceAbha)

/-- One uploaded file after byte acquisition: name, MIME type
(`f.type`, possibly empty) and base64 payload
(`fileToBase64NoPrefix`). -/
structure FileUpload where
  name : String
  mimeType : String
  dataB64 : String
deriving DecidableEq

/-- One invoice line.  The state holds the raw field values; every
consumer applies `Number(x) || 0`, so the line is modelled with the
coerced rational values. -/
structure Line where
  description : String
  quantity : ℚ
  unitPrice : ℚ
deriving DecidableEq

/-- The validated input record a build call reads: selected patient,
form state, practitioner globals, invoice lines, uploaded files, and
the `uuidv4` supply (`ids n` is the value of one of the generator
calls; the claims do not depend on which call maps to which index). -/
structure AppInputs where
  selectedPatient : Option Patient
  selectedAbha : String
  status : String
  title : String
  authoredOn : String
  now : String
  encounterText : String
  custodianName : String
  attesterMode : String
  attesterPartyType : String
  attesterOrgName : String
  practitionerId : String
  practitionerName : String
  practitionerLicense : String
  lines : List Line
  files : List FileUpload
  ids : ℕ → String

/-- Models `validateBeforeBuild`: aggregated error list. -/
def validateBeforeBuild (inp : AppInputs) : List String :=
  (match inp.selectedPatient with
   | none => ["Select a patient (required)."]
   | some _ => []) ++
  (if inp.status = "" then ["Status is required."] else []) ++
  (if inp.title = "" ∨ jsStrTrim inp.title = "" then ["Title is required."] else []) ++
  (if ¬((inp.lines.any fun l => decide (0 < l.quantity * l.unitPrice)) = true ∨ inp.files ≠ []) then
    ["Add at least one invoice line with amount > 0, or upload at least one document."]
   else [])

def compId (inp : AppInputs) : String := inp.ids 0

def patientId (inp : AppInputs) : String := inp.ids 1

def encounterId (inp : AppInputs) : String := inp.ids 2

def custodianId (inp : AppInputs) : String := inp.ids 3

def attesterOrgId (inp : AppInputs) : String := inp.ids 4

def invoiceId (inp : AppInputs) : String := inp.ids 5

def binId (inp : AppInputs) (i : ℕ) : String := inp.ids (6 + 2 * i)

def docId (inp : AppInputs) (i : ℕ) : String := inp.ids (7 + 2 * i)

/-- Models `buildPatientResource` (identifier / telecom blocks omitted
as presentation-only). -/
def buildPatientResource (inp : AppInputs) : Resource :=
  let p := inp.selectedPatient.getD {}
  { resourceType := "Patient"
    id := patientId inp
    name := p.name
    gender := p.gender.map String.toLower
    birthDate := match p.dob with | none => none | some d => ddmmyyyyToISO d }

/-- Models `buildPractitionerResource`. -/
def buildPractitionerResource (inp : AppInputs) : Resource :=
  { resourceType := "Practitioner"
    id := inp.practitionerId
    name := some inp.practitionerName }

/-- The Encounter resource built when `encounterText` is non-empty. -/
def encounterResA (inp : AppInputs) : Resource :=
  { resourceType := "Encounter"
    id := encounterId inp
    status := some "finished"
    subject := some (urn (patientId inp)) }

/-- Models `buildEncounterResource` (returns `null` when no encounter
text was entered). -/
def buildEncounterResource (inp : AppInputs) : Option Resource :=
  if inp.encounterText = "" then none else some (encounterResA inp)

/-- The custodian Organization built when `custodianName` is
non-empty. -/
def custodianOrgA (inp : AppInputs) : Resource :=
  { resourceType := "Organization"
    id := custodianId inp
    name := some inp.custodianName }

/-- Models `buildCustodianOrg`. -/
def buildCustodianOrg (inp : AppInputs) : Option Resource :=
  if inp.custodianName = "" then none else some (custodianOrgA inp)

/-- The attester Organization built when the attester party type is
`Organization` and a name was entered. -/
def attesterOrgA (inp : AppInputs) : Resource :=
  { resourceType := "Organization"
    id := attesterOrgId inp
    name := some inp.attesterOrgName }

/-- Models `buildAttesterOrg`. -/
def buildAttesterOrg (inp : AppInputs) : Option Resource :=
  if inp.attesterPartyType = "Organization" ∧ inp.attesterOrgName ≠ "" then
    some (attesterOrgA inp)
  else none

/-- Models the `invoiceTotal` memo:
`lines.reduce((sum, l) => sum + (Number(l.quantity) || 0) * (Number(l.unitPrice) || 0), 0)`. -/
def invoiceTotal (inp : AppInputs) : ℚ :=
  (inp.lines.map fun l => l.quantity * l.unitPrice).sum

/-- Models `buildInvoiceResource`: `totalNet` and `totalGross` both
carry `Number(invoiceTotal.toFixed(2))` (the `lineItem` array is
presentation-only for the claims and omitted). -/
def buildInvoiceResource (inp : AppInputs) : Resource :=
  { resourceType := "Invoice"
    id := invoiceId inp
    status := some "issued"
    subject := some (urn (patientId inp))
    date := some inp.authoredOn
    participant := [urn inp.practitionerId]
    totalNet := some ⟨.fin (toFixed2 (invoiceTotal inp)), "INR"⟩
    totalGross := some ⟨.fin (toFixed2 (invoiceTotal inp)), "INR"⟩ }

/-- Number of document / binary pairs processed:
`files.length ? files : [null]`. -/
def nDocs (inp : AppInputs) : ℕ :=
  if inp.files.isEmpty then 1 else inp.files.length

/-- Content type for slot `i`: the file's MIME type, or
`application/pdf` for a missing type or the placeholder. -/
def fileContentType (f : Option FileUpload) : String :=
  match f with
  | some f => if f.mimeType = "" then "application/pdf" else f.mimeType
  | none => "application/pdf"

/-- Attachment title for a slot: the file name, or `placeholder.pdf`. -/
def fileTitle (f : Option FileUpload) : String :=
  match f with
  | some f => if f.name = "" then "placeholder.pdf" else f.name
  | none => "placeholder.pdf"

/-- Base64 payload for a slot: the file bytes, or the placeholder. -/
def fileData (f : Option FileUpload) : String :=
  match f with
  | some f => f.dataB64
  | none => PLACEHOLDER_PDF_B64

/-- The Binary resource for slot `i` of
`buildDocAndBinaryResources`. -/
def buildBinary (inp : AppInputs) (i : ℕ) : Resource :=
  { resourceType := "Binary"
    id := binId inp i
    contentType := some (fileContentType inp.files[i]?)
    data := some (fileData inp.files[i]?) }

/-- The DocumentReference resource for slot `i` of
`buildDocAndBinaryResources`. -/
def buildDocRef (inp : AppInputs) (i : ℕ) : Resource :=
  { resourceType := "DocumentReference"
    id := docId inp i
    status := some "current"
    subject := some (urn (patientId inp))
    date := some inp.authoredOn
    contentType := some (fileContentType inp.files[i]?)
    attachmentTitle := some (fileTitle inp.files[i]?)
    attachmentUrl := some (urn (binId inp i)) }

/-- Models `buildComposition`: section entries are the Invoice
followed by every DocumentReference; the attester list falls back to
an `official` attester pointing at the practitioner. -/
def buildComposition (inp : AppInputs) : Resource :=
  { resourceType := "Composition"
    id := compId inp
    status := some inp.status
    subject := some (urn (patientId inp))
    encounter := if inp.encounterText = "" then none else some (urn (encounterId inp))
    date := some inp.authoredOn
    author := [urn inp.practitionerId]
    title := some inp.title
    attester :=
      if inp.attesterPartyType = "Practitioner" then [urn inp.practitionerId]
      else if inp.attesterPartyType = "Organization" ∧ inp.attesterOrgName ≠ "" then
        [urn (attesterOrgId inp)]
      else [urn inp.practitionerId]
    custodian := if inp.custodianName = "" then none else some (urn (custodianId inp))
    sectionEntries :=
      urn (invoiceId inp) :: (List.range (nDocs inp)).map fun i => urn (docId inp i) }

/-- The bundle entry list in source order: Composition, Patient,
Practitioner, Invoice, the optional Encounter / custodian /
attester-organization entries, then DocumentReferences, then
Binaries; each locator is `urn:uuid:` plus the resource id. -/
def appEntries (inp : AppInputs) : List Entry :=
  [⟨urn (buildComposition inp).id, buildComposition inp⟩,
   ⟨urn (buildPatientResource inp).id, buildPatientResource inp⟩,
   ⟨urn (buildPractitionerResource inp).id, buildPractitionerResource inp⟩,
   ⟨urn (buildInvoiceResource inp).id, buildInvoiceResource inp⟩] ++
  optEntry (buildEncounterResource inp) ++
  optEntry (buildCustodianOrg inp) ++
  optEntry (buildAttesterOrg inp) ++
  ((List.range (nDocs inp)).map fun i => ⟨urn (buildDocRef inp i).id, buildDocRef inp i⟩) ++
  ((List.range (nDocs inp)).map fun i => ⟨urn (buildBinary inp i).id, buildBinary inp i⟩)

/-- The assembled bundle. -/
def appBundle (inp : AppInputs) : Bundle :=
  { id := "InvoiceBundle-" ++ inp.ids 100
    type := "document"
    timestamp := inp.now
    entry := appEntries inp }

/-- Models `onBuildBundle`: when validation reports errors the build
is refused (the source alerts and returns with no bundle built);
otherwise the bundle is assembled.  The network submission that
consumes the bundle is outside the engine. -/
def onBuildBundle (inp : AppInputs) : Option Bundle :=
  match validateBeforeBuild inp with
  | [] => some (appBundle inp)
  | _ :: _ => none

end AppV1

/- ------------------------------------------------------------------
   Variant 2: `src/invoice-record-2.js`
   ------------------------------------------------------------------ -/

namespace App2

open Fhir

/-- Models the regular expression
`/^(\d{1,2})[-\/](\d{1,2})[-\/](\d{2,4})$/`: returns the three digit
groups on a match.  (The scanner takes a maximal digit run for each
group; since every group is followed by a non-digit or the end of the
input, this agrees with the backtracking regex.)  Year stage: the
third digit group (2 to 4 digits) and the end of the input. -/
def matchDmyYear (d1 d2 : List Char) : List Char → Option (List Char × List Char × List Char)
  | [] => none
  | c2 :: r4 =>
    if c2 ≠ '-' ∧ c2 ≠ '/' then none
    else
      if (r4.span Char.isDigit).1.length < 2 ∨ 4 < (r4.span Char.isDigit).1.length ∨
          (r4.span Char.isDigit).2 ≠ [] then none
      else some (d1, d2, (r4.span Char.isDigit).1)

/-- Month stage of the day-month-year match: second separator and
second digit group. -/
def matchDmyMonth (d1 : List Char) : List Char → Option (List Char × List Char × List Char)
  | [] => none
  | c :: r2 =>
    if c ≠ '-' ∧ c ≠ '/' then none
    else
      if (r2.span Char.isDigit).1.length < 1 ∨ 2 < (r2.span Char.isDigit).1.length then none
      else matchDmyYear d1 (r2.span Char.isDigit).1 (r2.span Char.isDigit).2

/-- Models the regular expression
`/^(\d{1,2})[-\/](\d{1,2})[-\/](\d{2,4})$/` from `toFhirDate`,
returning the three digit groups on a match. -/
def matchDmy (cs : List Char) : Option (List Char × List Char × List Char) :=
  if (cs.span Char.isDigit).1.length < 1 ∨ 2 < (cs.span Char.isDigit).1.length then none
  else matchDmyMonth (cs.span Char.isDigit).1 (cs.span Char.isDigit).2

/-- Models `toFhirDate` from `invoice-record-2.js`.  The final
`new Date(input)` fallback is host-defined generic date parsing; it is
passed in as the `dateParse` parameter (returning the
`toISOString().slice(0, 10)` calendar date of a valid parse, `none`
for an invalid one). -/
def toFhirDate (dateParse : String → Option String) (input : String) : Option String :=
  if input = "" then none
  else if isIsoDateShape input.toList then some input
  else
    match matchDmy input.toList with
    | some (dd, mm, yy) =>
      some (String.mk ((if yy.length = 2 then '1' :: '9' :: yy else yy) ++
        '-' :: padStart2 mm ++ '-' :: padStart2 dd))
    | none => dateParse input

/-- Coercion of one raw address entry inside
`getAbhaAddressesForPatient`: falsy entries give `null`; strings pass
through; objects use `a.address ?? JSON.stringify(a)` (nullish
coalescing, so an empty-string `address` passes through here and is
dropped by the later `filter(Boolean)`). -/
def coerceAbha2 : AbhaRaw → Option String
  | .jsNull => none
  | .str s => if s = "" then none else some s
  | .obj address _ stringified => some (address.getD stringified)

/-- Helper for `Array.from(new Set(xs))`: keeps the first occurrence
of each value, in insertion order. -/
def dedupFirstAux (seen : List String) : List String → List String
  | [] => []
  | x :: xs =>
    if x ∈ seen then dedupFirstAux seen xs
    else x :: dedupFirstAux (x :: seen) xs

/-- Models `Array.from(new Set(xs))`. -/
def dedupFirst (l : List String) : List String := dedupFirstAux [] l

/-- Models `getAbhaAddressesForPatient`: reads only
`additional_attributes?.abha_addresses ?? []`, coerces and drops falsy
values, prepends `abha_ref` when truthy and not already present, and
deduplicates through a `Set`. -/
def getAbhaAddressesForPatient (p : Option Patient) : List String :=
  match p with
  | none => []
  | some pt =>
    let normalized := ((pt.additional_abha.getD []).filterMap coerceAbha2).filter
      fun s => s != ""
    let withRef :=
      match pt.abha_ref with
      | some r =>
        if r ≠ "" ∧ r ∉ normalized then r :: normalized else normalized
      | none => normalized
    dedupFirst withRef

/-- One line item of the `lineItems` state (field values are numbers
in this variant: the inputs apply `Number(e.target.value)`). -/
structure LineItem2 where
  id : String
  description : String
  quantity : ℚ
  unit : String
  unitPrice : ℚ
  taxPercent : ℚ
deriving DecidableEq

/-- One stored attachment: id, file name, MIME type and base64
payload. -/
structure Attachment2 where
  id : String
  name : String
  contentType : String
  data : String
deriving DecidableEq

/-- The input record a `buildBundle` call reads, together with the
`uuidv4` supply and the host date parser (see `toFhirDate`). -/
structure Inputs2 where
  patients : List Patient
  selectedPatientIdx : Option ℕ
  selectedAbha : String
  practitionerId : String
  practitionerName : String
  practitionerLicense : String
  organizationId : String
  organizationName : String
  invoiceNumber : String
  invoiceDate : String
  invoiceType : String
  paymentTerms : String
  paymentStatus : String
  lineItems : List LineItem2
  totalNet : String
  totalTax : String
  totalGross : String
  attachments : List Attachment2
  now : String
  dateParse : String → Option String
  ids : ℕ → String

/-- Base amount of one line: `Number(li.quantity || 0) * Number(li.unitPrice || 0)`. -/
def lineBase (li : LineItem2) : ℚ := li.quantity * li.unitPrice

/-- Tax amount of one line: `base * (Number(li.taxPercent || 0) / 100)`. -/
def lineTax (li : LineItem2) : ℚ := lineBase li * (li.taxPercent / 100)

/-- Sum of the line bases, as computed by the auto-compute-totals
effect. -/
def autoNet (items : List LineItem2) : ℚ := (items.map lineBase).sum

/-- Sum of the line taxes, as computed by the auto-compute-totals
effect. -/
def autoTax (items : List LineItem2) : ℚ := (items.map lineTax).sum

/-- Models the `useEffect` that rewrites the three totals text fields:
`setTotalNet(base.toFixed(2))`, `setTotalTax(tax.toFixed(2))`,
`setTotalGross((base + tax).toFixed(2))`. -/
def autoTotalsStrings (items : List LineItem2) : String × String × String :=
  (toFixed2Str (autoNet items), toFixed2Str (autoTax items),
    toFixed2Str (autoNet items + autoTax items))

/-- `computedNet` in `buildBundle`: the sum over the processed line
items of the base price component, each already rounded to two
decimals (`Number(base.toFixed(2))`). -/
def computedNet (items : List LineItem2) : ℚ :=
  (items.map fun li => toFixed2 (lineBase li)).sum

/-- `computedTax` in `buildBundle`: the tax component is present only
when the line tax is positive, again already rounded. -/
def computedTax (items : List LineItem2) : ℚ :=
  (items.map fun li => if 0 < lineTax li then toFixed2 (lineTax li) else 0).sum

/-- `computedGross = computedNet + computedTax`. -/
def computedGross (items : List LineItem2) : ℚ := computedNet items + computedTax items

/-- Models one of the three reconciliation lines
`totalX && !isNaN(Number(totalX)) ? Number(totalX) : Number(computedX.toFixed(2))`:
the override string is used when it is truthy (non-empty) and does not
convert to `NaN`; otherwise the computed figure (rounded to two
decimals) is used. -/
def reconcileFigure (override : String) (computed : ℚ) : JsNum :=
  if override ≠ "" ∧ jsNumber override ≠ JsNum.nan then jsNumber override
  else JsNum.fin (toFixed2 computed)

/-- The three reconciliations of `buildBundle` (lines defining
`finalNet`, `finalTax`, `finalGross`), each independent of the other
two override strings. -/
def reconcileTotals (oN oT oG : String) (cN cT cG : ℚ) : JsNum × JsNum × JsNum :=
  (reconcileFigure oN cN, reconcileFigure oT cT, reconcileFigure oG cG)

/-- `finalNet` for the full input record. -/
def finalNet (inp : Inputs2) : JsNum :=
  reconcileFigure inp.totalNet (computedNet inp.lineItems)

/-- `finalTax` for the full input record. -/
def finalTax (inp : Inputs2) : JsNum :=
  reconcileFigure inp.totalTax (computedTax inp.lineItems)

/-- `finalGross` for the full input record. -/
def finalGross (inp : Inputs2) : JsNum :=
  reconcileFigure inp.totalGross (computedGross inp.lineItems)

/-- `patientId`: the lower-cased `user_ref_id` when it is a non-empty
string, else a fresh identifier. -/
def patientId (inp : Inputs2) (selPatient : Patient) : String :=
  match selPatient.user_ref_id with
  | some s => if s ≠ "" then s.toLower else inp.ids 0
  | none => inp.ids 0

def compId (inp : Inputs2) : String := inp.ids 1

/-- `practId`: `practitioner.id` lower-cased when non-empty, else
fresh. -/
def practId (inp : Inputs2) : String :=
  if inp.practitionerId ≠ "" then inp.practitionerId.toLower else inp.ids 2

/-- `orgId`: `organization.id || uuidv4()`. -/
def orgId (inp : Inputs2) : String :=
  if inp.organizationId ≠ "" then inp.organizationId else inp.ids 3

def invoiceId (inp : Inputs2) : String := inp.ids 4

/-- The Patient resource (identifier / telecom / narrative blocks
omitted as presentation-only). -/
def patientResource (inp : Inputs2) (selPatient : Patient) : Resource :=
  { resourceType := "Patient"
    id := patientId inp selPatient
    name := some (selPatient.name.getD "")
    gender := selPatient.gender.map String.toLower
    birthDate := match selPatient.dob with
      | none => none
      | some d => toFhirDate inp.dateParse d }

/-- The Practitioner resource. -/
def practitionerResource (inp : Inputs2) : Resource :=
  { resourceType := "Practitioner"
    id := practId inp
    name := some (if inp.practitionerName = "" then "Unknown Practitioner"
      else inp.practitionerName) }

/-- The issuer Organization resource. -/
def organizationResource (inp : Inputs2) : Resource :=
  { resourceType := "Organization"
    id := orgId inp
    name := some inp.organizationName }

/-- The Invoice resource: subject and recipient reference the patient,
issuer the organization; `totalNet` / `totalGross` carry
`Number(finalNet.toFixed(2))` / `Number(finalGross.toFixed(2))`. -/
def invoiceResource (inp : Inputs2) (selPatient : Patient) : Resource :=
  { resourceType := "Invoice"
    id := invoiceId inp
    status := some "issued"
    date := some (if inp.invoiceDate = "" then inp.now else inp.invoiceDate)
    subject := some (urn (patientId inp selPatient))
    recipient := some (urn (patientId inp selPatient))
    issuer := some (urn (orgId inp))
    totalNet := some ⟨jsFix2 (finalNet inp), "INR"⟩
    totalGross := some ⟨jsFix2 (finalGross inp), "INR"⟩ }

/-- The Composition resource: one section whose single entry
references the Invoice. -/
def compositionResource (inp : Inputs2) (selPatient : Patient) : Resource :=
  { resourceType := "Composition"
    id := compId inp
    status := some "final"
    title := some ("Invoice " ++ inp.invoiceNumber)
    date := some inp.now
    subject := some (urn (patientId inp selPatient))
    author := [urn (practId inp)]
    attester := [urn (practId inp)]
    sectionEntries := [urn (invoiceId inp)] }

/-- The Binary resources: one per stored attachment, reusing the
attachment id. -/
def binaryResources (inp : Inputs2) : List Resource :=
  inp.attachments.map fun att =>
    { resourceType := "Binary"
      id := att.id
      contentType := some att.contentType
      data := some att.data }

/-- The DocumentReference resources: one per stored attachment, id
`doc-` plus the attachment id, attachment url referencing the
Binary.  (No `subject` reference in this variant.) -/
def docRefs (inp : Inputs2) : List Resource :=
  inp.attachments.map fun att =>
    { resourceType := "DocumentReference"
      id := "doc-" ++ att.id
      status := some "current"
      attachmentTitle := some att.name
      attachmentUrl := some (urn att.id) }

/-- The bundle entry list in source order: Composition, Patient,
Practitioner, Organization, Invoice, Binaries, DocumentReferences;
each locator is `urn:uuid:` plus the resource id. -/
def entries2 (inp : Inputs2) (selPatient : Patient) : List Entry :=
  [⟨urn (compId inp), compositionResource inp selPatient⟩,
   ⟨urn (patientId inp selPatient), patientResource inp selPatient⟩,
   ⟨urn (practId inp), practitionerResource inp⟩,
   ⟨urn (orgId inp), organizationResource inp⟩,
   ⟨urn (invoiceId inp), invoiceResource inp selPatient⟩] ++
  ((binaryResources inp).map fun br => ⟨urn br.id, br⟩) ++
  ((docRefs inp).map fun dr => ⟨urn dr.id, dr⟩)

/-- Models `buildBundle`: refused (returns `null` after an alert) when
no patient is selected, the index is stale, or no ABHA address is
selected; otherwise the assembled document bundle. -/
def buildBundle (inp : Inputs2) : Option Bundle :=
  match inp.selectedPatientIdx with
  | none => none
  | some idx =>
    match inp.patients[idx]? with
    | none => none
    | some selPatient =>
      if inp.selectedAbha = "" then none
      else some
        { id := inp.ids 5
          type := "document"
          timestamp := inp.now
          entry := entries2 inp selPatient }

/- ------------------------------------------------------------------
   Line-item session state (for the add / update / remove handlers)
   ------------------------------------------------------------------ -/

/-- Identifier supply modelling `uuidv4()` for the line-item handlers:
only freshness matters, so the supply is any injective function of a
counter (here: strings of distinct lengths). -/
def freshId (n : ℕ) : String := String.mk (List.replicate (n + 1) 'u')

/-- The `lineItems` React state together with the fresh-identifier
counter. -/
structure ItemsState where
  fresh : ℕ
  items : List LineItem2
deriving DecidableEq

/-- The blank line appended by `addLineItem`. -/
def newLineItem (id : String) : LineItem2 :=
  ⟨id, "", 1, "each", 0, 0⟩

/-- The initial `lineItems` state. -/
def initialState : ItemsState :=
  ⟨1, [⟨freshId 0, "Consultation", 1, "each", 500, 0⟩]⟩

/-- Models `addLineItem`. -/
def addLineItem (s : ItemsState) : ItemsState :=
  ⟨s.fresh + 1, s.items ++ [newLineItem (freshId s.fresh)]⟩

/-- A patch as passed by the UI to `updateLineItem`: any of the five
editable fields (the id is never patched by any caller). -/
structure LinePatch where
  description : Option String := none
  quantity : Option ℚ := none
  unit : Option String := none
  unitPrice : Option ℚ := none
  taxPercent : Option ℚ := none

/-- Models the object spread `{ ...li, ...patch }`. -/
def applyPatch (li : LineItem2) (p : LinePatch) : LineItem2 :=
  { li with
    description := p.description.getD li.description
    quantity := p.quantity.getD li.quantity
    unit := p.unit.getD li.unit
    unitPrice := p.unitPrice.getD li.unitPrice
    taxPercent := p.taxPercent.getD li.taxPercent }

/-- Models `updateLineItem`. -/
def updateLineItem (x : String) (p : LinePatch) (s : ItemsState) : ItemsState :=
  ⟨s.fresh, s.items.map fun li => if li.id = x then applyPatch li p else li⟩

/-- Models `removeLineItem`:
`setLineItems((s) => (s.length <= 1 ? s : s.filter((li) => li.id !== id)))`. -/
def removeLineItem (x : String) (s : ItemsState) : ItemsState :=
  ⟨s.fresh, if s.items.length ≤ 1 then s.items else s.items.filter fun li => li.id != x⟩

/-- States reachable from the initial line-item state by the three
handlers. -/
inductive Reachable : ItemsState → Prop where
  | init : Reachable initialState
  | add {s} : Reachable s → Reachable (addLineItem s)
  | update {s} (x : String) (p : LinePatch) : Reachable s → Reachable (updateLineItem x p s)
  | remove {s} (x : String) : Reachable s → Reachable (removeLineItem x s)

end App2

/- ------------------------------------------------------------------
   Concrete sample inputs used by witnesses and counterexamples
   ------------------------------------------------------------------ -/

/-- A concrete patient record. -/
def samplePatient : Patient :=
  { name := some "Asha"
    gender := some "female"
    dob := some "05-08-1990"
    user_ref_id := some "UR-1"
    abha_ref := some "asha@abdm" }

/-- A concrete valid input record for the `App.js` build (no files
uploaded, one billable line). -/
def sampleAppInputs : AppV1.AppInputs :=
  { selectedPatient := some samplePatient
    selectedAbha := "asha@abdm"
    status := "final"
    title := "Invoice Record"
    authoredOn := "2025-08-30T15:04:05+05:30"
    now := "2025-08-30T15:04:06+05:30"
    encounterText := ""
    custodianName := ""
    attesterMode := "professional"
    attesterPartyType := "Practitioner"
    attesterOrgName := ""
    practitionerId := "pr-1"
    practitionerName := "Dr. ABC"
    practitionerLicense := "LIC-TEMP-0001"
    lines := [⟨"Consultation", 1, 500⟩]
    files := []
    ids := fun n => "id-" ++ String.mk (List.replicate n 'x') }

/-- A concrete invalid input record for the `App.js` build: no patient
selected, no billable line, no files. -/
def emptyAppInputs : AppV1.AppInputs :=
  { sampleAppInputs with
    selectedPatient := none
    lines := [⟨"", 0, 0⟩] }

/-- A concrete valid input record for the `invoice-record-2.js` build
(no attachments; totals fields holding the auto-computed strings). -/
def sampleInputs2 : App2.Inputs2 :=
  { patients := [samplePatient]
    selectedPatientIdx := some 0
    selectedAbha := "asha@abdm"
    practitionerId := "PR-77"
    practitionerName := "Dr. ABC"
    practitionerLicense := "LIC-1234"
    organizationId := "org-9"
    organizationName := "Default Hospital"
    invoiceNumber := "INV-1"
    invoiceDate := "2025-08-30"
    invoiceType := "healthcare"
    paymentTerms := ""
    paymentStatus := "pending"
    lineItems := [⟨"li0", "Consultation", 1, "each", 500, 0⟩]
    totalNet := "500.00"
    totalTax := "0.00"
    totalGross := "500.00"
    attachments := []
    now := "2025-08-30T10:00:00.000Z"
    dateParse := fun _ => none
    ids := fun n => "id2-" ++ String.mk (List.replicate n 'y') }

/-- The bundle the sample variant-2 build produces. -/
def sampleBundle2 : Fhir.Bundle :=
  { id := sampleInputs2.ids 5
    type := "document"
    timestamp := sampleInputs2.now
    entry := App2.entries2 sampleInputs2 samplePatient }

/-- Line item exhibiting a tax sum with more than two decimals:
base `0.25`, tax `0.125`. -/
def ceLineItem : App2.LineItem2 := ⟨"li1", "svc", 1, "each", 1 / 4, 50⟩

/-- Variant-2 inputs holding that line with the auto-computed totals
strings (`0.25` / `0.13` / `0.38`, as the totals effect writes). -/
def ceInputs : App2.Inputs2 :=
  { sampleInputs2 with
    lineItems := [ceLineItem]
    totalNet := "0.25"
    totalTax := "0.13"
    totalGross := "0.38" }

/-- The address-ordering example from the claim: a non-primary `a`
followed by a primary `b`. -/
def examplePatient : Patient :=
  { additional_abha := some [AbhaRaw.obj (some "a") false "ja", AbhaRaw.obj (some "b") true "jb"] }

/-- A patient whose address list contains a duplicated value. -/
def dupPatient : Patient :=
  { additional_abha := some [AbhaRaw.str "x", AbhaRaw.str "x"] }

/- ------------------------------------------------------------------
   Lemmas: digits, trimming, spans, and the toFixed round trip
   ------------------------------------------------------------------ -/

theorem charVal_digChar {n : ℕ} (h : n < 10) : charVal (digChar n) = n := by
  interval_cases n <;> rfl

theorem isDigit_digChar (n : ℕ) : (digChar n).isDigit = true := by
  unfold digChar
  split <;> rfl

theorem natDigitsLE_ne_nil (n : ℕ) : natDigitsLE n ≠ [] := by
  rw [natDigitsLE]
  split <;> simp

theorem natDigitsLE_all_digit (n : ℕ) : ∀ c ∈ natDigitsLE n, c.isDigit = true := by
  induction n using Nat.strong_induction_on with
  | _ n ih =>
    rw [natDigitsLE]
    split
    · intro c hc
      simp only [List.mem_singleton] at hc
      subst hc
      exact isDigit_digChar n
    · intro c hc
      rcases List.mem_cons.mp hc with h | h
      · subst h; exact isDigit_digChar _
      · exact ih (n / 10) (Nat.div_lt_self (by omega) (by omega)) c h

theorem valLE_natDigitsLE (n : ℕ) : valLE (natDigitsLE n) = n := by
  induction n using Nat.strong_induction_on with
  | _ n ih =>
    rw [natDigitsLE]
    split
    · rename_i h
      simp [valLE, charVal_digChar h]
    · rename_i h
      have hrec := ih (n / 10) (Nat.div_lt_self (by omega) (by omega))
      simp [valLE, hrec, charVal_digChar (Nat.mod_lt n (by omega))]
      omega

theorem digitsVal_append_singleton (l : List Char) (c : Char) :
    digitsVal (l ++ [c]) = 10 * digitsVal l + charVal c := by
  simp [digitsVal, List.foldl_append]

theorem digitsVal_reverse (l : List Char) : digitsVal l.reverse = valLE l := by
  induction l with
  | nil => rfl
  | cons c cs ih =>
    simp only [List.reverse_cons, digitsVal_append_singleton, ih, valLE]
    omega

theorem digitsVal_natRepr (n : ℕ) : digitsVal (natRepr n) = n := by
  rw [natRepr, digitsVal_reverse, valLE_natDigitsLE]

theorem natRepr_ne_nil (n : ℕ) : natRepr n ≠ [] := by
  simp [natRepr, natDigitsLE_ne_nil]

theorem natRepr_all_digit (n : ℕ) : ∀ c ∈ natRepr n, c.isDigit = true := by
  intro c hc
  exact natDigitsLE_all_digit n c (List.mem_reverse.mp hc)

theorem isWs_eq_false_of_isDigit {c : Char} (h : c.isDigit = true) : isWs c = false := by
  rcases heq : isWs c
  · rfl
  · exfalso
    have hcc : c = ' ' ∨ c = '\t' ∨ c = '\n' ∨ c = '\r' := by
      simpa [isWs, or_assoc] using heq
    rcases hcc with rfl | rfl | rfl | rfl <;> exact absurd h (by decide)

theorem dropWhile_eq_self_of (l : List Char) (h : ∀ c ∈ l, isWs c = false) :
    l.dropWhile isWs = l := by
  cases l with
  | nil => rfl
  | cons c cs => simp [List.dropWhile_cons, h c (by simp)]

theorem jsTrim_eq_self (l : List Char) (h : ∀ c ∈ l, isWs c = false) : jsTrim l = l := by
  unfold jsTrim
  rw [dropWhile_eq_self_of l h,
    dropWhile_eq_self_of l.reverse (fun c hc => h c (List.mem_reverse.mp hc)),
    List.reverse_reverse]

theorem takeWhile_append_stop (p : Char → Bool) (l1 : List Char) (c : Char) (l2 : List Char)
    (h1 : ∀ x ∈ l1, p x = true) (hc : p c = false) :
    (l1 ++ c :: l2).takeWhile p = l1 := by
  induction l1 with
  | nil => simp [List.takeWhile_cons, hc]
  | cons a t ih =>
    simp [List.takeWhile_cons, h1 a (by simp),
      ih (fun x hx => h1 x (by simp [hx]))]

theorem dropWhile_append_stop (p : Char → Bool) (l1 : List Char) (c : Char) (l2 : List Char)
    (h1 : ∀ x ∈ l1, p x = true) (hc : p c = false) :
    (l1 ++ c :: l2).dropWhile p = c :: l2 := by
  induction l1 with
  | nil => simp [List.dropWhile_cons, hc]
  | cons a t ih =>
    simp [List.dropWhile_cons, h1 a (by simp),
      ih (fun x hx => h1 x (by simp [hx]))]

theorem span_append_stop (p : Char → Bool) (l1 : List Char) (c : Char) (l2 : List Char)
    (h1 : ∀ x ∈ l1, p x = true) (hc : p c = false) :
    (l1 ++ c :: l2).span p = (l1, c :: l2) := by
  simp [List.span_eq_take_drop, takeWhile_append_stop p l1 c l2 h1 hc,
    dropWhile_append_stop p l1 c l2 h1 hc]

theorem takeWhile_eq_self_of_all (p : Char → Bool) (l : List Char)
    (h : ∀ x ∈ l, p x = true) : l.takeWhile p = l := by
  induction l with
  | nil => rfl
  | cons a t ih =>
    simp [List.takeWhile_cons, h a (by simp), ih (fun x hx => h x (by simp [hx]))]

theorem dropWhile_eq_nil_of_all (p : Char → Bool) (l : List Char)
    (h : ∀ x ∈ l, p x = true) : l.dropWhile p = [] := by
  induction l with
  | nil => rfl
  | cons a t ih =>
    simp [List.dropWhile_cons, h a (by simp), ih (fun x hx => h x (by simp [hx]))]

theorem span_eq_self_of_all (p : Char → Bool) (l : List Char)
    (h : ∀ x ∈ l, p x = true) : l.span p = (l, []) := by
  simp [List.span_eq_take_drop, takeWhile_eq_self_of_all p l h, dropWhile_eq_nil_of_all p l h]

theorem digitsVal_two (x y : ℕ) (hx : x < 10) (hy : y < 10) :
    digitsVal [digChar x, digChar y] = 10 * x + y := by
  simp [digitsVal, charVal_digChar hx, charVal_digChar hy]

theorem natDivMod_cast (m : ℕ) :
    ((m / 100 : ℕ) : ℚ) + ((m % 100 : ℕ) : ℚ) / 100 = (m : ℚ) / 100 := by
  have h : (100 : ℚ) ≠ 0 := by norm_num
  field_simp
  norm_cast
  omega

theorem parseDecimal_fixedDigits (m : ℕ) :
    parseDecimal (natRepr (m / 100) ++ '.' :: [digChar (m % 100 / 10), digChar (m % 100 % 10)]) =
      .fin ((m : ℚ) / 100) := by
  have hspan1 := span_append_stop Char.isDigit (natRepr (m / 100)) '.'
    [digChar (m % 100 / 10), digChar (m % 100 % 10)] (natRepr_all_digit _) (by decide)
  have hdigits : ∀ x ∈ [digChar (m % 100 / 10), digChar (m % 100 % 10)], x.isDigit = true := by
    intro x hx
    simp only [List.mem_cons, List.not_mem_nil, or_false] at hx
    rcases hx with rfl | rfl <;> exact isDigit_digChar _
  have hspan2 := span_eq_self_of_all Char.isDigit
    [digChar (m % 100 / 10), digChar (m % 100 % 10)] hdigits
  simp only [parseDecimal]
  rw [hspan1]
  dsimp only
  simp only [parseDecimalCore]
  rw [if_pos trivial, hspan2]
  dsimp only
  simp only [parseFracCore]
  rw [if_neg (fun hand => natRepr_ne_nil _ hand.1)]
  have hv : (digitsVal (natRepr (m / 100)) : ℚ) +
      (digitsVal [digChar (m % 100 / 10), digChar (m % 100 % 10)] : ℚ) /
        (10 : ℚ) ^ ([digChar (m % 100 / 10), digChar (m % 100 % 10)].length) =
      (m : ℚ) / 100 := by
    rw [digitsVal_natRepr, digitsVal_two _ _ (by omega) (by omega)]
    have hmm : 10 * (m % 100 / 10) + m % 100 % 10 = m % 100 := by omega
    rw [hmm]
    norm_num
    exact natDivMod_cast m
  rw [hv]
  rfl

theorem nonWs_toFixedNN (q : ℚ) : ∀ c ∈ toFixed2StrNN q, isWs c = false := by
  intro c hc
  unfold toFixed2StrNN at hc
  simp only [List.mem_append, List.mem_cons, List.not_mem_nil, or_false] at hc
  rcases hc with h | h | h | h
  · exact isWs_eq_false_of_isDigit (natRepr_all_digit _ c h)
  · subst h; decide
  · subst h; exact isWs_eq_false_of_isDigit (isDigit_digChar _)
  · subst h; exact isWs_eq_false_of_isDigit (isDigit_digChar _)

theorem toFixedNN_eq (q : ℚ) :
    toFixed2StrNN q = natRepr ((⌊100 * q + 1 / 2⌋).toNat / 100) ++
      '.' :: [digChar ((⌊100 * q + 1 / 2⌋).toNat % 100 / 10),
        digChar ((⌊100 * q + 1 / 2⌋).toNat % 100 % 10)] := rfl

theorem toFixedNN_head_digit (q : ℚ) :
    ∃ d t, toFixed2StrNN q = d :: t ∧ d.isDigit = true := by
  rcases hnr : natRepr ((⌊100 * q + 1 / 2⌋).toNat / 100) with _ | ⟨d, t⟩
  · exact absurd hnr (natRepr_ne_nil _)
  · refine ⟨d, t ++ '.' :: [digChar ((⌊100 * q + 1 / 2⌋).toNat % 100 / 10),
      digChar ((⌊100 * q + 1 / 2⌋).toNat % 100 % 10)], ?_, ?_⟩
    · rw [toFixedNN_eq, hnr]
      simp
    · exact natRepr_all_digit _ d (by rw [hnr]; simp)

theorem readSign_digit {d : Char} (t : List Char) (hd : d.isDigit = true) :
    readSign (d :: t) = (false, d :: t) := by
  have h1 : ¬ d = '-' := fun h => absurd hd (by subst h; decide)
  have h2 : ¬ d = '+' := fun h => absurd hd (by subst h; decide)
  show (if d = '-' then (true, t)
    else if d = '+' then (false, t) else (false, d :: t)) = (false, d :: t)
  rw [if_neg h1, if_neg h2]

theorem ne_infinity_of_head_digit {d : Char} (t : List Char) (hd : d.isDigit = true) :
    (d :: t) ≠ "Infinity".toList := by
  intro h
  rw [show "Infinity".toList = ['I', 'n', 'f', 'i', 'n', 'i', 't', 'y'] from rfl] at h
  injection h with h1 _
  subst h1
  exact absurd hd (by decide)

theorem parseDecimal_toFixedNN (q : ℚ) :
    parseDecimal (toFixed2StrNN q) = .fin (((⌊100 * q + 1 / 2⌋).toNat : ℚ) / 100) := by
  rw [toFixedNN_eq]
  exact parseDecimal_fixedDigits _

theorem toNat_cast_rat {z : ℤ} (hz : 0 ≤ z) : ((z.toNat : ℕ) : ℚ) = (z : ℚ) := by
  rw [← Int.cast_natCast, Int.toNat_of_nonneg hz]

theorem readSign_dash (l : List Char) : readSign ('-' :: l) = (true, l) := by
  show (if '-' = '-' then (true, l)
    else if '-' = '+' then (false, l) else (false, '-' :: l)) = (true, l)
  rw [if_pos rfl]

theorem jsNumber_toFixed2Str (q : ℚ) : jsNumber (toFixed2Str q) = .fin (toFixed2 q) := by
  by_cases hq : q < 0
  · have hfloor : (0 : ℤ) ≤ ⌊100 * (-q) + 1 / 2⌋ := Int.le_floor.mpr (by push_cast; nlinarith)
    obtain ⟨d, t, hdt, hd⟩ := toFixedNN_head_digit (-q)
    have htrim : jsTrim ('-' :: toFixed2StrNN (-q)) = '-' :: toFixed2StrNN (-q) := by
      refine jsTrim_eq_self _ ?_
      intro c hc
      rcases List.mem_cons.mp hc with rfl | hc
      · decide
      · exact nonWs_toFixedNN (-q) c hc
    simp only [jsNumber, toFixed2Str, if_pos hq,
      show (String.mk ('-' :: toFixed2StrNN (-q))).toList = '-' :: toFixed2StrNN (-q) from rfl,
      htrim]
    rw [if_neg (by simp), readSign_dash]
    dsimp only
    rw [if_neg (by rw [hdt]; exact ne_infinity_of_head_digit t hd)]
    rw [parseDecimal_toFixedNN (-q)]
    simp only [if_true]
    unfold toFixed2 toFixed2Int
    rw [if_pos hq]
    rw [toNat_cast_rat hfloor]
    push_cast
    ring_nf
  · have hfloor : (0 : ℤ) ≤ ⌊100 * q + 1 / 2⌋ := by
      refine Int.le_floor.mpr ?_
      push_cast
      nlinarith [le_of_not_lt hq]
    obtain ⟨d, t, hdt, hd⟩ := toFixedNN_head_digit q
    have htrim : jsTrim (toFixed2StrNN q) = toFixed2StrNN q :=
      jsTrim_eq_self _ (nonWs_toFixedNN q)
    simp only [jsNumber, toFixed2Str, if_neg hq,
      show (String.mk (toFixed2StrNN q)).toList = toFixed2StrNN q from rfl, htrim]
    rw [if_neg (by rw [hdt]; simp)]
    rw [hdt, readSign_digit t hd]
    dsimp only
    rw [if_neg (ne_infinity_of_head_digit t hd)]
    rw [← hdt, parseDecimal_toFixedNN q]
    simp only [Bool.false_eq_true, if_false]
    unfold toFixed2 toFixed2Int
    rw [if_neg hq]
    rw [toNat_cast_rat hfloor]

theorem toFixed2Str_ne_empty (q : ℚ) : toFixed2Str q ≠ "" := by
  unfold toFixed2Str
  split
  · intro h
    have hl := congrArg String.toList h
    simp at hl
  · intro h
    have hl := congrArg String.toList h
    rw [show (String.mk (toFixed2StrNN q)).toList = toFixed2StrNN q from rfl,
      toFixedNN_eq, show ("" : String).toList = [] from rfl] at hl
    simp at hl

theorem floor_half_zero : ⌊(1 : ℚ) / 2⌋ = 0 := by
  rw [Int.floor_eq_iff]
  norm_num

theorem toFixed2_div100_int (k : ℤ) : toFixed2 ((k : ℚ) / 100) = (k : ℚ) / 100 := by
  unfold toFixed2 toFixed2Int
  by_cases hk : (k : ℚ) / 100 < 0
  · rw [if_pos hk]
    have harg : 100 * (-((k : ℚ) / 100)) + 1 / 2 = ((-k : ℤ) : ℚ) + 1 / 2 := by
      push_cast
      ring
    rw [harg, Int.floor_int_add, floor_half_zero]
    push_cast
    ring
  · rw [if_neg hk]
    have harg : 100 * ((k : ℚ) / 100) + 1 / 2 = ((k : ℤ) : ℚ) + 1 / 2 := by
      ring
    rw [harg, Int.floor_int_add, floor_half_zero]
    push_cast
    ring

theorem toFixed2_idem (q : ℚ) : toFixed2 (toFixed2 q) = toFixed2 q :=
  toFixed2_div100_int (toFixed2Int q)

theorem reconcileFigure_toFixed2Str (q c : ℚ) :
    App2.reconcileFigure (toFixed2Str q) c = .fin (toFixed2 q) := by
  unfold App2.reconcileFigure
  rw [if_pos ⟨toFixed2Str_ne_empty q, by rw [jsNumber_toFixed2Str]; simp⟩,
    jsNumber_toFixed2Str]

/- ------------------------------------------------------------------
   Lemmas: splitting and the two date normalizers
   ------------------------------------------------------------------ -/

theorem toList_mk (l : List Char) : (String.mk l).toList = l := rfl

theorem splitOnChar_ne_nil (sep : Char) (l : List Char) : splitOnChar sep l ≠ [] := by
  cases l with
  | nil => simp [splitOnChar]
  | cons c cs =>
    simp only [splitOnChar]
    split
    · simp
    · rcases h : splitOnChar sep cs with _ | ⟨p, ps⟩ <;> simp

theorem splitOnChar_no_sep (sep : Char) (l : List Char) (h : sep ∉ l) :
    splitOnChar sep l = [l] := by
  induction l with
  | nil => rfl
  | cons c cs ih =>
    have hc : ¬ c = sep := fun hh => h (by rw [hh]; exact List.mem_cons_self _ _)
    have hcs : sep ∉ cs := fun hh => h (List.mem_cons_of_mem _ hh)
    simp [splitOnChar, if_neg hc, ih hcs]

theorem splitOnChar_sep_append (sep : Char) (l1 l2 : List Char) (h : sep ∉ l1) :
    splitOnChar sep (l1 ++ sep :: l2) = l1 :: splitOnChar sep l2 := by
  induction l1 with
  | nil => simp [splitOnChar]
  | cons c cs ih =>
    have hc : ¬ c = sep := fun hh => h (by rw [hh]; exact List.mem_cons_self _ _)
    have hcs : sep ∉ cs := fun hh => h (List.mem_cons_of_mem _ hh)
    rw [List.cons_append]
    simp only [splitOnChar, if_neg hc, ih hcs]

theorem splitOnChar_three (sep : Char) (d1 d2 d3 : List Char)
    (h1 : sep ∉ d1) (h2 : sep ∉ d2) (h3 : sep ∉ d3) :
    splitOnChar sep (d1 ++ sep :: (d2 ++ sep :: d3)) = [d1, d2, d3] := by
  rw [splitOnChar_sep_append sep d1 _ h1, splitOnChar_sep_append sep d2 _ h2,
    splitOnChar_no_sep sep d3 h3]

theorem dash_not_mem_digits {d : List Char} (g : ∀ c ∈ d, c.isDigit = true) : '-' ∉ d :=
  fun hmem => absurd (g '-' hmem) (by decide)

theorem digits_not_ws {d : List Char} (g : ∀ c ∈ d, c.isDigit = true) :
    ∀ c ∈ d, isWs c = false :=
  fun c hc => isWs_eq_false_of_isDigit (g c hc)

theorem dmy_list_not_ws (d1 d2 d3 : List Char)
    (g1 : ∀ c ∈ d1, c.isDigit = true) (g2 : ∀ c ∈ d2, c.isDigit = true)
    (g3 : ∀ c ∈ d3, c.isDigit = true) :
    ∀ c ∈ d1 ++ '-' :: (d2 ++ '-' :: d3), isWs c = false := by
  intro c hc
  simp only [List.mem_append, List.mem_cons] at hc
  rcases hc with h | h | h
  · exact digits_not_ws g1 c h
  · subst h; decide
  · rcases h with h | h
    · exact digits_not_ws g2 c h
    · rcases h with h | h
      · subst h; decide
      · exact digits_not_ws g3 c h

theorem dmy_list_ne_nil (d1 d2 d3 : List Char) :
    d1 ++ '-' :: (d2 ++ '-' :: d3) ≠ [] := by
  simp

theorem dmy_mk_ne_empty (d1 d2 d3 : List Char) :
    String.mk (d1 ++ '-' :: (d2 ++ '-' :: d3)) ≠ "" := by
  intro h
  have hl := congrArg String.toList h
  rw [toList_mk, show ("" : String).toList = [] from rfl] at hl
  simp at hl

theorem ddmmyyyyToISO_parts (d1 d2 d3 : List Char)
    (n1 : d1 ≠ []) (n2 : d2 ≠ []) (n3 : d3 ≠ [])
    (g1 : ∀ c ∈ d1, c.isDigit = true) (g2 : ∀ c ∈ d2, c.isDigit = true)
    (g3 : ∀ c ∈ d3, c.isDigit = true)
    (hiso : isIsoDateShape (d1 ++ '-' :: (d2 ++ '-' :: d3)) = false) :
    AppV1.ddmmyyyyToISO (String.mk (d1 ++ '-' :: (d2 ++ '-' :: d3))) =
      some (String.mk (d3 ++ '-' :: padStart2 d2 ++ '-' :: padStart2 d1)) := by
  have htrim : jsTrim (String.mk (d1 ++ '-' :: (d2 ++ '-' :: d3))).toList =
      d1 ++ '-' :: (d2 ++ '-' :: d3) := by
    rw [toList_mk]
    exact jsTrim_eq_self _ (dmy_list_not_ws d1 d2 d3 g1 g2 g3)
  unfold AppV1.ddmmyyyyToISO
  rw [if_neg (dmy_mk_ne_empty d1 d2 d3), htrim, if_neg (by rw [hiso]; simp)]
  unfold AppV1.ddmmSplit
  have hcont : (d1 ++ '-' :: (d2 ++ '-' :: d3)).contains '-' = true := by
    simp [List.contains]
  rw [if_pos hcont]
  dsimp only
  rw [splitOnChar_three '-' d1 d2 d3 (dash_not_mem_digits g1) (dash_not_mem_digits g2)
    (dash_not_mem_digits g3)]
  dsimp only
  rw [if_neg (by simp [n1, n2, n3])]

theorem toFhirDate_empty (g : String → Option String) : App2.toFhirDate g "" = none := rfl

theorem toFhirDate_iso (g : String → Option String) (s : String)
    (h : isIsoDateShape s.toList = true) : App2.toFhirDate g s = some s := by
  have hne : s ≠ "" := by
    intro he
    subst he
    exact absurd h (by decide)
  unfold App2.toFhirDate
  rw [if_neg hne, if_pos h]

theorem toFhirDate_fallback (g : String → Option String) (s : String)
    (h0 : s ≠ "") (h1 : isIsoDateShape s.toList = false)
    (h2 : App2.matchDmy s.toList = none) : App2.toFhirDate g s = g s := by
  unfold App2.toFhirDate
  rw [if_neg h0, if_neg (by rw [h1]; simp), h2]

theorem sep_cond_false {c : Char} (hsep : c = '-' ∨ c = '/') : ¬(c ≠ '-' ∧ c ≠ '/') := by
  rcases hsep with rfl | rfl <;> simp

theorem matchDmy_parts (d1 d2 d3 : List Char) (s1 s2 : Char)
    (hs1 : s1 = '-' ∨ s1 = '/') (hs2 : s2 = '-' ∨ s2 = '/')
    (l1a : 1 ≤ d1.length) (l1b : d1.length ≤ 2)
    (l2a : 1 ≤ d2.length) (l2b : d2.length ≤ 2)
    (l3a : 2 ≤ d3.length) (l3b : d3.length ≤ 4)
    (g1 : ∀ c ∈ d1, c.isDigit = true) (g2 : ∀ c ∈ d2, c.isDigit = true)
    (g3 : ∀ c ∈ d3, c.isDigit = true) :
    App2.matchDmy (d1 ++ s1 :: (d2 ++ s2 :: d3)) = some (d1, d2, d3) := by
  have hnd1 : Char.isDigit s1 = false := by rcases hs1 with rfl | rfl <;> decide
  have hnd2 : Char.isDigit s2 = false := by rcases hs2 with rfl | rfl <;> decide
  have hspan1 := span_append_stop Char.isDigit d1 s1 (d2 ++ s2 :: d3) g1 hnd1
  have hspan2 := span_append_stop Char.isDigit d2 s2 d3 g2 hnd2
  have hspan3 := span_eq_self_of_all Char.isDigit d3 g3
  unfold App2.matchDmy
  rw [hspan1]
  dsimp only
  rw [if_neg (by omega)]
  simp only [App2.matchDmyMonth]
  rw [if_neg (sep_cond_false hs1), hspan2]
  dsimp only
  rw [if_neg (by omega)]
  simp only [App2.matchDmyYear]
  rw [if_neg (sep_cond_false hs2), hspan3]
  dsimp only
  rw [if_neg (by simp; omega)]

theorem toFhirDate_parts (g : String → Option String) (d1 d2 d3 : List Char) (s1 s2 : Char)
    (hs1 : s1 = '-' ∨ s1 = '/') (hs2 : s2 = '-' ∨ s2 = '/')
    (l1a : 1 ≤ d1.length) (l1b : d1.length ≤ 2)
    (l2a : 1 ≤ d2.length) (l2b : d2.length ≤ 2)
    (l3a : 2 ≤ d3.length) (l3b : d3.length ≤ 4)
    (g1 : ∀ c ∈ d1, c.isDigit = true) (g2 : ∀ c ∈ d2, c.isDigit = true)
    (g3 : ∀ c ∈ d3, c.isDigit = true)
    (hiso : isIsoDateShape (d1 ++ s1 :: (d2 ++ s2 :: d3)) = false) :
    App2.toFhirDate g (String.mk (d1 ++ s1 :: (d2 ++ s2 :: d3))) =
      some (String.mk ((if d3.length = 2 then '1' :: '9' :: d3 else d3) ++
        '-' :: padStart2 d2 ++ '-' :: padStart2 d1)) := by
  have hne : String.mk (d1 ++ s1 :: (d2 ++ s2 :: d3)) ≠ "" := by
    intro h
    have hl := congrArg String.toList h
    rw [toList_mk, show ("" : String).toList = [] from rfl] at hl
    simp at hl
  unfold App2.toFhirDate
  rw [if_neg hne, toList_mk, if_neg (by rw [hiso]; simp),
    matchDmy_parts d1 d2 d3 s1 s2 hs1 hs2 l1a l1b l2a l2b l3a l3b g1 g2 g3]

/- ------------------------------------------------------------------
   Lemmas: address deduplication and the line-item state invariant
   ------------------------------------------------------------------ -/

theorem dedupFirstAux_not_seen (seen l : List String) :
    ∀ x ∈ App2.dedupFirstAux seen l, x ∉ seen := by
  induction l generalizing seen with
  | nil => simp [App2.dedupFirstAux]
  | cons a t ih =>
    intro x hx
    simp only [App2.dedupFirstAux] at hx
    split at hx
    · exact ih seen x hx
    · rename_i hnotseen
      rcases List.mem_cons.mp hx with rfl | hx
      · exact hnotseen
      · intro hmem
        exact ih (a :: seen) x hx (List.mem_cons_of_mem _ hmem)

theorem dedupFirstAux_nodup (seen l : List String) :
    (App2.dedupFirstAux seen l).Nodup := by
  induction l generalizing seen with
  | nil => simp [App2.dedupFirstAux]
  | cons a t ih =>
    simp only [App2.dedupFirstAux]
    split
    · exact ih seen
    · refine List.nodup_cons.mpr ⟨?_, ih (a :: seen)⟩
      intro hmem
      exact dedupFirstAux_not_seen (a :: seen) t a hmem (List.mem_cons_self _ _)

theorem dedupFirst_nodup (l : List String) : (App2.dedupFirst l).Nodup :=
  dedupFirstAux_nodup [] l

theorem freshId_inj {a b : ℕ} (h : App2.freshId a = App2.freshId b) : a = b := by
  have hlen := congrArg (fun s => s.toList.length) h
  simpa [App2.freshId, toList_mk] using hlen

theorem applyPatch_id (li : App2.LineItem2) (p : App2.LinePatch) :
    (App2.applyPatch li p).id = li.id := rfl

theorem length_filter_ne_of_nodup (l : List App2.LineItem2) (x : String)
    (hn : (l.map fun li => li.id).Nodup) (hl : 2 ≤ l.length) :
    1 ≤ (l.filter fun li => li.id != x).length := by
  cases l with
  | nil => simp at hl
  | cons a t =>
    by_cases hax : a.id = x
    · have hanotmem : a.id ∉ t.map fun li => li.id := by
        rw [List.map_cons] at hn
        exact (List.nodup_cons.mp hn).1
      have hkeep : (t.filter fun li => li.id != x) = t := by
        refine List.filter_eq_self.mpr ?_
        intro li hli
        simp only [bne_iff_ne, ne_eq, decide_eq_true_eq]
        intro heq
        exact hanotmem (by rw [hax, ← heq]; exact List.mem_map_of_mem _ hli)
      rw [List.filter_cons, if_neg (by simp [hax])]
      rw [hkeep]
      simp only [List.length_cons] at hl
      omega
    · rw [List.filter_cons, if_pos (by simp [hax])]
      simp

theorem reachable_invariant (s : App2.ItemsState) (h : App2.Reachable s) :
    1 ≤ s.items.length ∧ (s.items.map fun li => li.id).Nodup ∧
      ∀ i ∈ s.items.map fun li => li.id, ∃ k, k < s.fresh ∧ i = App2.freshId k := by
  induction h with
  | init =>
    refine ⟨by simp [App2.initialState], by simp [App2.initialState], ?_⟩
    intro i hi
    simp [App2.initialState] at hi
    exact ⟨0, by norm_num [App2.initialState], hi⟩
  | add hr ih =>
    rename_i s
    obtain ⟨ihl, ihn, ihb⟩ := ih
    have hfreshnot : App2.freshId s.fresh ∉ s.items.map fun li => li.id := by
      intro hmem
      obtain ⟨k, hk, hke⟩ := ihb _ hmem
      exact absurd (freshId_inj hke.symm) (by omega)
    refine ⟨?_, ?_, ?_⟩
    · simp only [App2.addLineItem, List.length_append]
      omega
    · simp only [App2.addLineItem, List.map_append]
      refine List.Nodup.append ihn (by simp [App2.newLineItem]) ?_
      intro a ha hb
      simp [App2.newLineItem] at hb
      subst hb
      exact hfreshnot ha
    · intro i hi
      simp only [App2.addLineItem, List.map_append, List.mem_append] at hi
      rcases hi with hi | hi
      · obtain ⟨k, hk, hke⟩ := ihb i hi
        exact ⟨k, by simp [App2.addLineItem]; omega, hke⟩
      · simp [App2.newLineItem] at hi
        exact ⟨s.fresh, by simp [App2.addLineItem], hi⟩
  | update x p hr ih =>
    rename_i s
    obtain ⟨ihl, ihn, ihb⟩ := ih
    have hids : (s.items.map fun li => if li.id = x then App2.applyPatch li p else li).map
        (fun li => li.id) = s.items.map fun li => li.id := by
      rw [List.map_map]
      refine List.map_congr_left ?_
      intro li _
      simp only [Function.comp_apply]
      split <;> rfl
    refine ⟨by simpa [App2.updateLineItem] using ihl, ?_, ?_⟩
    · simpa [App2.updateLineItem, hids] using ihn
    · intro i hi
      rw [show (App2.updateLineItem x p s).items =
        s.items.map fun li => if li.id = x then App2.applyPatch li p else li from rfl,
        hids] at hi
      exact ihb i hi
  | remove x hr ih =>
    rename_i s
    obtain ⟨ihl, ihn, ihb⟩ := ih
    by_cases hle : s.items.length ≤ 1
    · have hsame : (App2.removeLineItem x s).items = s.items := by
        simp [App2.removeLineItem, hle]
      refine ⟨by rw [hsame]; exact ihl, by rw [hsame]; exact ihn, ?_⟩
      intro i hi
      rw [hsame] at hi
      exact ihb i hi
    · have hfil : (App2.removeLineItem x s).items = s.items.filter fun li => li.id != x := by
        simp [App2.removeLineItem, hle]
      have hsub : ((s.items.filter fun li => li.id != x).map fun li => li.id).Sublist
          (s.items.map fun li => li.id) :=
        List.Sublist.map _ (List.filter_sublist _)
      refine ⟨?_, ?_, ?_⟩
      · rw [hfil]
        exact length_filter_ne_of_nodup s.items x ihn (by omega)
      · rw [hfil]
        exact ihn.sublist hsub
      · intro i hi
        rw [hfil] at hi
        exact ihb i (hsub.mem hi)

theorem removeLineItem_singleton (x : String) (s : App2.ItemsState)
    (h : s.items.length = 1) : App2.removeLineItem x s = s := by
  unfold App2.removeLineItem
  rw [if_pos (by omega)]

/- ------------------------------------------------------------------
   Lemmas: bundle shape and reference resolution
   ------------------------------------------------------------------ -/

theorem mem_optEntry {e : Fhir.Entry} {o : Option Fhir.Resource} :
    e ∈ Fhir.optEntry o ↔ ∃ r, o = some r ∧ e = ⟨Fhir.urn r.id, r⟩ := by
  cases o <;> simp [Fhir.optEntry]

theorem onBuild_some {inp : AppV1.AppInputs} {b : Fhir.Bundle}
    (h : AppV1.onBuildBundle inp = some b) : b = AppV1.appBundle inp := by
  unfold AppV1.onBuildBundle at h
  rcases hv : AppV1.validateBeforeBuild inp with _ | ⟨m, ms⟩
  · rw [hv] at h
    simpa using h.symm
  · rw [hv] at h
    simp at h

theorem buildBundle2_some {inp : App2.Inputs2} {b : Fhir.Bundle}
    (h : App2.buildBundle inp = some b) :
    ∃ idx selPatient, inp.selectedPatientIdx = some idx ∧
      inp.patients[idx]? = some selPatient ∧
      b = ⟨inp.ids 5, "document", inp.now, App2.entries2 inp selPatient⟩ := by
  unfold App2.buildBundle at h
  rcases hidx : inp.selectedPatientIdx with _ | idx
  · rw [hidx] at h
    simp at h
  · rw [hidx] at h
    dsimp only at h
    rcases hpat : inp.patients[idx]? with _ | selPatient
    · rw [hpat] at h
      simp at h
    · rw [hpat] at h
      dsimp only at h
      split at h
      · simp at h
      · exact ⟨idx, selPatient, rfl, hpat, by simpa using h.symm⟩

theorem appEntries_shape (inp : AppV1.AppInputs) :
    ∀ e ∈ AppV1.appEntries inp, e.fullUrl = Fhir.urn e.resource.id := by
  intro e he
  simp only [AppV1.appEntries, List.mem_append, List.mem_cons, List.not_mem_nil, or_false,
    List.mem_map, List.mem_range] at he
  rcases he with (((((rfl | rfl | rfl | rfl) | ho) | ho) | ho) | ⟨i, -, rfl⟩) | ⟨i, -, rfl⟩
  · rfl
  · rfl
  · rfl
  · rfl
  · obtain ⟨r, -, rfl⟩ := mem_optEntry.mp ho; rfl
  · obtain ⟨r, -, rfl⟩ := mem_optEntry.mp ho; rfl
  · obtain ⟨r, -, rfl⟩ := mem_optEntry.mp ho; rfl
  · rfl
  · rfl

theorem entries2_shape (inp : App2.Inputs2) (selPatient : Patient) :
    ∀ e ∈ App2.entries2 inp selPatient, e.fullUrl = Fhir.urn e.resource.id := by
  intro e he
  simp only [App2.entries2, App2.binaryResources, App2.docRefs, List.mem_append,
    List.mem_cons, List.not_mem_nil, or_false, List.mem_map, List.map_map] at he
  rcases he with ((he | he | he | he | he) | he) | he
  · subst he; rfl
  · subst he; rfl
  · subst he; rfl
  · subst he; rfl
  · subst he; rfl
  · obtain ⟨att, -, rfl⟩ := he; rfl
  · obtain ⟨att, -, rfl⟩ := he; rfl

theorem resolve_target {es : List Fhir.Entry} (e2 : Fhir.Entry) (hm : e2 ∈ es) {x : String}
    (hid : e2.resource.id = x) : ∃ e3 ∈ es, Fhir.urn x = Fhir.urn e3.resource.id :=
  ⟨e2, hm, by rw [hid]⟩

theorem mem_app_comp (inp : AppV1.AppInputs) :
    (⟨Fhir.urn (AppV1.buildComposition inp).id, AppV1.buildComposition inp⟩ : Fhir.Entry) ∈
      AppV1.appEntries inp := by
  simp [AppV1.appEntries]

theorem mem_app_pat (inp : AppV1.AppInputs) :
    (⟨Fhir.urn (AppV1.buildPatientResource inp).id, AppV1.buildPatientResource inp⟩ : Fhir.Entry) ∈
      AppV1.appEntries inp := by
  simp [AppV1.appEntries]

theorem mem_app_pract (inp : AppV1.AppInputs) :
    (⟨Fhir.urn (AppV1.buildPractitionerResource inp).id,
      AppV1.buildPractitionerResource inp⟩ : Fhir.Entry) ∈ AppV1.appEntries inp := by
  simp [AppV1.appEntries]

theorem mem_app_inv (inp : AppV1.AppInputs) :
    (⟨Fhir.urn (AppV1.buildInvoiceResource inp).id, AppV1.buildInvoiceResource inp⟩ : Fhir.Entry) ∈
      AppV1.appEntries inp := by
  simp [AppV1.appEntries]

theorem mem_app_enc (inp : AppV1.AppInputs) (h : ¬ inp.encounterText = "") :
    (⟨Fhir.urn (AppV1.encounterResA inp).id, AppV1.encounterResA inp⟩ : Fhir.Entry) ∈
      AppV1.appEntries inp := by
  have hb : AppV1.buildEncounterResource inp = some (AppV1.encounterResA inp) := by
    rw [AppV1.buildEncounterResource, if_neg h]
  simp [AppV1.appEntries, hb, Fhir.optEntry]

theorem mem_app_cust (inp : AppV1.AppInputs) (h : ¬ inp.custodianName = "") :
    (⟨Fhir.urn (AppV1.custodianOrgA inp).id, AppV1.custodianOrgA inp⟩ : Fhir.Entry) ∈
      AppV1.appEntries inp := by
  have hb : AppV1.buildCustodianOrg inp = some (AppV1.custodianOrgA inp) := by
    rw [AppV1.buildCustodianOrg, if_neg h]
  simp [AppV1.appEntries, hb, Fhir.optEntry]

theorem mem_app_attOrg (inp : AppV1.AppInputs)
    (h : inp.attesterPartyType = "Organization" ∧ inp.attesterOrgName ≠ "") :
    (⟨Fhir.urn (AppV1.attesterOrgA inp).id, AppV1.attesterOrgA inp⟩ : Fhir.Entry) ∈
      AppV1.appEntries inp := by
  have hb : AppV1.buildAttesterOrg inp = some (AppV1.attesterOrgA inp) := by
    rw [AppV1.buildAttesterOrg, if_pos h]
  simp [AppV1.appEntries, hb, Fhir.optEntry]

theorem mem_app_doc (inp : AppV1.AppInputs) (i : ℕ) (h : i < AppV1.nDocs inp) :
    (⟨Fhir.urn (AppV1.buildDocRef inp i).id, AppV1.buildDocRef inp i⟩ : Fhir.Entry) ∈
      AppV1.appEntries inp := by
  simp only [AppV1.appEntries, List.mem_append]
  exact Or.inl (Or.inr (by simp only [List.mem_map, List.mem_range]; exact ⟨i, h, rfl⟩))

theorem mem_app_bin (inp : AppV1.AppInputs) (i : ℕ) (h : i < AppV1.nDocs inp) :
    (⟨Fhir.urn (AppV1.buildBinary inp i).id, AppV1.buildBinary inp i⟩ : Fhir.Entry) ∈
      AppV1.appEntries inp := by
  simp only [AppV1.appEntries, List.mem_append]
  exact Or.inr (by simp only [List.mem_map, List.mem_range]; exact ⟨i, h, rfl⟩)

theorem appComposition_attester_resolve (inp : AppV1.AppInputs) (r : String)
    (hr : r ∈ (AppV1.buildComposition inp).attester) :
    ∃ e2 ∈ AppV1.appEntries inp, r = Fhir.urn e2.resource.id := by
  simp only [AppV1.buildComposition] at hr
  split at hr
  · simp only [List.mem_singleton] at hr
    subst hr
    exact resolve_target _ (mem_app_pract inp) rfl
  · split at hr
    · rename_i hcond
      simp only [List.mem_singleton] at hr
      subst hr
      exact resolve_target _ (mem_app_attOrg inp hcond) rfl
    · simp only [List.mem_singleton] at hr
      subst hr
      exact resolve_target _ (mem_app_pract inp) rfl

theorem appComposition_encounter_resolve (inp : AppV1.AppInputs) (r : String)
    (hr : r ∈ ((AppV1.buildComposition inp).encounter).toList) :
    ∃ e2 ∈ AppV1.appEntries inp, r = Fhir.urn e2.resource.id := by
  simp only [AppV1.buildComposition] at hr
  split at hr
  · simp at hr
  · rename_i hcond
    simp only [Option.toList, List.mem_singleton] at hr
    subst hr
    exact resolve_target _ (mem_app_enc inp hcond) rfl

theorem appComposition_custodian_resolve (inp : AppV1.AppInputs) (r : String)
    (hr : r ∈ ((AppV1.buildComposition inp).custodian).toList) :
    ∃ e2 ∈ AppV1.appEntries inp, r = Fhir.urn e2.resource.id := by
  simp only [AppV1.buildComposition] at hr
  split at hr
  · simp at hr
  · rename_i hcond
    simp only [Option.toList, List.mem_singleton] at hr
    subst hr
    exact resolve_target _ (mem_app_cust inp hcond) rfl

theorem appRefs_resolve (inp : AppV1.AppInputs) :
    ∀ e ∈ AppV1.appEntries inp, ∀ r ∈ Fhir.refsOf e.resource,
      ∃ e2 ∈ AppV1.appEntries inp, r = Fhir.urn e2.resource.id := by
  intro e he r hr
  simp only [AppV1.appEntries, List.mem_append, List.mem_cons, List.not_mem_nil, or_false,
    List.mem_map, List.mem_range] at he
  rcases he with (((((rfl | rfl | rfl | rfl) | ho) | ho) | ho) | ⟨i, hi, rfl⟩) | ⟨i, hi, rfl⟩
  · -- Composition entry
    have hatt := appComposition_attester_resolve inp r
    have henc := appComposition_encounter_resolve inp r
    have hcust := appComposition_custodian_resolve inp r
    simp only [Fhir.refsOf] at hr
    simp only [List.mem_append] at hr
    rcases hr with ((((((((hsub | hauth) | hat) | hen) | hcu) | hpar) | hrec) | hiss) | hsec) | hurl
    · simp only [AppV1.buildComposition, Option.toList, List.mem_singleton] at hsub
      subst hsub
      exact resolve_target _ (mem_app_pat inp) rfl
    · simp only [AppV1.buildComposition, List.mem_singleton] at hauth
      subst hauth
      exact resolve_target _ (mem_app_pract inp) rfl
    · exact hatt hat
    · exact henc hen
    · exact hcust hcu
    · simp only [AppV1.buildComposition, List.not_mem_nil] at hpar
    · simp only [AppV1.buildComposition, Option.toList, List.not_mem_nil] at hrec
    · simp only [AppV1.buildComposition, Option.toList, List.not_mem_nil] at hiss
    · simp only [AppV1.buildComposition, List.mem_cons, List.mem_map, List.mem_range] at hsec
      rcases hsec with rfl | ⟨i, hi, rfl⟩
      · exact resolve_target _ (mem_app_inv inp) rfl
      · exact resolve_target _ (mem_app_doc inp i hi) rfl
    · simp only [AppV1.buildComposition, Option.toList, List.not_mem_nil] at hurl
  · -- Patient entry: no references
    simp [Fhir.refsOf, AppV1.buildPatientResource, Option.toList] at hr
  · -- Practitioner entry: no references
    simp [Fhir.refsOf, AppV1.buildPractitionerResource, Option.toList] at hr
  · -- Invoice entry
    simp only [Fhir.refsOf, AppV1.buildInvoiceResource, Option.toList, List.mem_append,
      List.mem_cons, List.not_mem_nil, or_false, false_or, List.mem_singleton] at hr
    rcases hr with rfl | rfl
    · exact resolve_target _ (mem_app_pat inp) rfl
    · exact resolve_target _ (mem_app_pract inp) rfl
  · -- optional Encounter entry
    obtain ⟨renc, hsome, rfl⟩ := mem_optEntry.mp ho
    have hcond : ¬ inp.encounterText = "" := by
      by_contra hcc
      rw [AppV1.buildEncounterResource, if_pos hcc] at hsome
      simp at hsome
    have hres : renc = AppV1.encounterResA inp := by
      rw [AppV1.buildEncounterResource, if_neg hcond] at hsome
      simpa using hsome.symm
    subst hres
    simp only [Fhir.refsOf, AppV1.encounterResA, Option.toList, List.mem_append,
      List.mem_cons, List.not_mem_nil, or_false, false_or, List.mem_singleton] at hr
    subst hr
    exact resolve_target _ (mem_app_pat inp) rfl
  · -- optional custodian Organization entry: no references
    obtain ⟨rc, hsome, rfl⟩ := mem_optEntry.mp ho
    have hres : rc = AppV1.custodianOrgA inp := by
      rw [AppV1.buildCustodianOrg] at hsome
      split at hsome
      · simp at hsome
      · simpa using hsome.symm
    subst hres
    simp [Fhir.refsOf, AppV1.custodianOrgA, Option.toList] at hr
  · -- optional attester Organization entry: no references
    obtain ⟨rc, hsome, rfl⟩ := mem_optEntry.mp ho
    have hres : rc = AppV1.attesterOrgA inp := by
      rw [AppV1.buildAttesterOrg] at hsome
      split at hsome
      · simpa using hsome.symm
      · simp at hsome
    subst hres
    simp [Fhir.refsOf, AppV1.attesterOrgA, Option.toList] at hr
  · -- DocumentReference entry
    simp only [Fhir.refsOf, AppV1.buildDocRef, Option.toList, List.mem_append,
      List.mem_cons, List.not_mem_nil, or_false, false_or, List.mem_singleton] at hr
    rcases hr with rfl | rfl
    · exact resolve_target _ (mem_app_pat inp) rfl
    · exact resolve_target _ (mem_app_bin inp i hi) rfl
  · -- Binary entry: no references
    simp [Fhir.refsOf, AppV1.buildBinary, Option.toList] at hr

theorem mem_2_comp (inp : App2.Inputs2) (selPatient : Patient) :
    (⟨Fhir.urn (App2.compId inp), App2.compositionResource inp selPatient⟩ : Fhir.Entry) ∈
      App2.entries2 inp selPatient := by
  simp [App2.entries2]

theorem mem_2_pat (inp : App2.Inputs2) (selPatient : Patient) :
    (⟨Fhir.urn (App2.patientId inp selPatient),
      App2.patientResource inp selPatient⟩ : Fhir.Entry) ∈ App2.entries2 inp selPatient := by
  simp [App2.entries2]

theorem mem_2_pract (inp : App2.Inputs2) (selPatient : Patient) :
    (⟨Fhir.urn (App2.practId inp), App2.practitionerResource inp⟩ : Fhir.Entry) ∈
      App2.entries2 inp selPatient := by
  simp [App2.entries2]

theorem mem_2_org (inp : App2.Inputs2) (selPatient : Patient) :
    (⟨Fhir.urn (App2.orgId inp), App2.organizationResource inp⟩ : Fhir.Entry) ∈
      App2.entries2 inp selPatient := by
  simp [App2.entries2]

theorem mem_2_inv (inp : App2.Inputs2) (selPatient : Patient) :
    (⟨Fhir.urn (App2.invoiceId inp), App2.invoiceResource inp selPatient⟩ : Fhir.Entry) ∈
      App2.entries2 inp selPatient := by
  simp [App2.entries2]

theorem mem_2_bin (inp : App2.Inputs2) (selPatient : Patient) {att : App2.Attachment2}
    (hatt : att ∈ inp.attachments) :
    (⟨Fhir.urn att.id,
      { resourceType := "Binary", id := att.id, contentType := some att.contentType,
        data := some att.data }⟩ : Fhir.Entry) ∈ App2.entries2 inp selPatient := by
  simp only [App2.entries2, App2.binaryResources, List.mem_append, List.map_map,
    List.mem_map]
  exact Or.inl (Or.inr ⟨att, hatt, rfl⟩)

theorem entries2_refs_resolve (inp : App2.Inputs2) (selPatient : Patient) :
    ∀ e ∈ App2.entries2 inp selPatient, ∀ r ∈ Fhir.refsOf e.resource,
      ∃ e2 ∈ App2.entries2 inp selPatient, r = Fhir.urn e2.resource.id := by
  intro e he r hr
  simp only [App2.entries2, App2.binaryResources, App2.docRefs, List.mem_append,
    List.mem_cons, List.not_mem_nil, or_false, List.mem_map, List.map_map] at he
  rcases he with ((rfl | rfl | rfl | rfl | rfl) | ⟨att, hatt, rfl⟩) | ⟨att, hatt, rfl⟩
  · -- Composition entry
    simp only [Fhir.refsOf, App2.compositionResource, Option.toList, List.mem_append,
      List.mem_cons, List.not_mem_nil, or_false, false_or, List.mem_singleton, or_assoc] at hr
    rcases hr with rfl | rfl | rfl | rfl
    · exact resolve_target _ (mem_2_pat inp selPatient) rfl
    · exact resolve_target _ (mem_2_pract inp selPatient) rfl
    · exact resolve_target _ (mem_2_pract inp selPatient) rfl
    · exact resolve_target _ (mem_2_inv inp selPatient) rfl
  · -- Patient entry: no references
    simp [Fhir.refsOf, App2.patientResource, Option.toList] at hr
  · -- Practitioner entry: no references
    simp [Fhir.refsOf, App2.practitionerResource, Option.toList] at hr
  · -- Organization entry: no references
    simp [Fhir.refsOf, App2.organizationResource, Option.toList] at hr
  · -- Invoice entry
    simp only [Fhir.refsOf, App2.invoiceResource, Option.toList, List.mem_append,
      List.mem_cons, List.not_mem_nil, or_false, false_or, List.mem_singleton, or_assoc] at hr
    rcases hr with rfl | rfl | rfl
    · exact resolve_target _ (mem_2_pat inp selPatient) rfl
    · exact resolve_target _ (mem_2_pat inp selPatient) rfl
    · exact resolve_target _ (mem_2_org inp selPatient) rfl
  · -- Binary entry: no references
    simp [Fhir.refsOf, Option.toList] at hr
  · -- DocumentReference entry
    simp only [Fhir.refsOf, Function.comp_apply, Option.toList, List.mem_append,
      List.mem_cons, List.not_mem_nil, or_false, false_or, List.mem_singleton] at hr
    subst hr
    exact resolve_target _ (mem_2_bin inp selPatient hatt) rfl

theorem filter_optEntry_ne (o : Option Fhir.Resource) (p : Fhir.Entry → Bool)
    (hp : ∀ r, o = some r → p ⟨Fhir.urn r.id, r⟩ = false) :
    (Fhir.optEntry o).filter p = [] := by
  cases o with
  | none => rfl
  | some r => simp [Fhir.optEntry, List.filter_cons, hp r rfl]

theorem buildEncounterResource_type {inp : AppV1.AppInputs} {r : Fhir.Resource}
    (h : AppV1.buildEncounterResource inp = some r) : r.resourceType = "Encounter" := by
  rw [AppV1.buildEncounterResource] at h
  split at h
  · simp at h
  · injection h with h
    subst h
    rfl

theorem buildCustodianOrg_type {inp : AppV1.AppInputs} {r : Fhir.Resource}
    (h : AppV1.buildCustodianOrg inp = some r) : r.resourceType = "Organization" := by
  rw [AppV1.buildCustodianOrg] at h
  split at h
  · simp at h
  · injection h with h
    subst h
    rfl

theorem buildAttesterOrg_type {inp : AppV1.AppInputs} {r : Fhir.Resource}
    (h : AppV1.buildAttesterOrg inp = some r) : r.resourceType = "Organization" := by
  rw [AppV1.buildAttesterOrg] at h
  split at h
  · injection h with h
    subst h
    rfl
  · simp at h

theorem appEntries_filter_binary_nofiles (inp : AppV1.AppInputs) (h : inp.files = []) :
    (AppV1.appEntries inp).filter (fun e => e.resource.resourceType == "Binary") =
      [⟨Fhir.urn (AppV1.binId inp 0), AppV1.buildBinary inp 0⟩] := by
  have hnd : AppV1.nDocs inp = 1 := by simp [AppV1.nDocs, h]
  have henc := filter_optEntry_ne (AppV1.buildEncounterResource inp)
    (fun e => e.resource.resourceType == "Binary")
    (fun r hr => by simp [buildEncounterResource_type hr])
  have hcust := filter_optEntry_ne (AppV1.buildCustodianOrg inp)
    (fun e => e.resource.resourceType == "Binary")
    (fun r hr => by simp [buildCustodianOrg_type hr])
  have hatt := filter_optEntry_ne (AppV1.buildAttesterOrg inp)
    (fun e => e.resource.resourceType == "Binary")
    (fun r hr => by simp [buildAttesterOrg_type hr])
  have hr1 : List.range 1 = [0] := rfl
  simp only [AppV1.appEntries, List.filter_append, hnd, hr1, List.map_cons,
    List.map_nil, henc, hcust, hatt]
  simp [AppV1.buildComposition, AppV1.buildPatientResource, AppV1.buildPractitionerResource,
    AppV1.buildInvoiceResource, AppV1.buildDocRef, AppV1.buildBinary, List.filter_cons]

theorem appEntries_filter_docref_nofiles (inp : AppV1.AppInputs) (h : inp.files = []) :
    (AppV1.appEntries inp).filter (fun e => e.resource.resourceType == "DocumentReference") =
      [⟨Fhir.urn (AppV1.docId inp 0), AppV1.buildDocRef inp 0⟩] := by
  have hnd : AppV1.nDocs inp = 1 := by simp [AppV1.nDocs, h]
  have henc := filter_optEntry_ne (AppV1.buildEncounterResource inp)
    (fun e => e.resource.resourceType == "DocumentReference")
    (fun r hr => by simp [buildEncounterResource_type hr])
  have hcust := filter_optEntry_ne (AppV1.buildCustodianOrg inp)
    (fun e => e.resource.resourceType == "DocumentReference")
    (fun r hr => by simp [buildCustodianOrg_type hr])
  have hatt := filter_optEntry_ne (AppV1.buildAttesterOrg inp)
    (fun e => e.resource.resourceType == "DocumentReference")
    (fun r hr => by simp [buildAttesterOrg_type hr])
  have hr1 : List.range 1 = [0] := rfl
  simp only [AppV1.appEntries, List.filter_append, hnd, hr1, List.map_cons,
    List.map_nil, henc, hcust, hatt]
  simp [AppV1.buildComposition, AppV1.buildPatientResource, AppV1.buildPractitionerResource,
    AppV1.buildInvoiceResource, AppV1.buildDocRef, AppV1.buildBinary, List.filter_cons]

theorem entries2_filter_noattach (inp : App2.Inputs2) (selPatient : Patient)
    (h : inp.attachments = []) (ty : String) (hty : ty = "Binary" ∨ ty = "DocumentReference") :
    (App2.entries2 inp selPatient).filter (fun e => e.resource.resourceType == ty) = [] := by
  simp only [App2.entries2, App2.binaryResources, App2.docRefs, h, List.map_nil,
    List.append_nil, List.filter_append]
  rcases hty with rfl | rfl <;>
    simp [App2.compositionResource, App2.patientResource, App2.practitionerResource,
      App2.organizationResource, App2.invoiceResource, List.filter_cons]

theorem sampleApp_validate : AppV1.validateBeforeBuild sampleAppInputs = [] := by
  have htr : jsStrTrim "Invoice Record" = "Invoice Record" := by decide
  have hq : (0 : ℚ) < 1 * 500 := by norm_num
  simp [AppV1.validateBeforeBuild, sampleAppInputs, htr, hq]

theorem sampleApp_build :
    AppV1.onBuildBundle sampleAppInputs = some (AppV1.appBundle sampleAppInputs) := by
  unfold AppV1.onBuildBundle
  rw [sampleApp_validate]

theorem sample2_build : App2.buildBundle sampleInputs2 = some sampleBundle2 := rfl

/- ------------------------------------------------------------------
   Claims
   ------------------------------------------------------------------ -/

/-- C1: for every bundle produced by a build (both variants), every
entry locator (`fullUrl`) equals the fixed prefix `urn:uuid:`
concatenated with that entry's record identifier
(`fullUrl = "urn:uuid:" + entry.resource.id`). -/
theorem claim_C1 :
    (∀ (inp : AppV1.AppInputs) (b : Fhir.Bundle), AppV1.onBuildBundle inp = some b →
      ∀ e ∈ b.entry, e.fullUrl = "urn:uuid:" ++ e.resource.id) ∧
    (∀ (inp : App2.Inputs2) (b : Fhir.Bundle), App2.buildBundle inp = some b →
      ∀ e ∈ b.entry, e.fullUrl = "urn:uuid:" ++ e.resource.id) := by
  constructor
  · intro inp b h e he
    rw [onBuild_some h] at he
    exact appEntries_shape inp e he
  · intro inp b h e he
    obtain ⟨idx, selPatient, -, -, rfl⟩ := buildBundle2_some h
    exact entries2_shape inp selPatient e he

/-- Witness for C1: both sample builds succeed and the conclusion
holds for their bundles. -/
theorem claim_C1_witness :
    (∀ e ∈ (AppV1.appBundle sampleAppInputs).entry,
      e.fullUrl = "urn:uuid:" ++ e.resource.id) ∧
    (∀ e ∈ sampleBundle2.entry, e.fullUrl = "urn:uuid:" ++ e.resource.id) :=
  ⟨claim_C1.1 sampleAppInputs (AppV1.appBundle sampleAppInputs) sampleApp_build,
   claim_C1.2 sampleInputs2 sampleBundle2 sample2_build⟩

/-- C2: for every bundle produced by a build (both variants), every
cross-record reference embedded in any record (Composition subject /
author / attester / encounter / custodian / section entries, Invoice
subject / participant / recipient / issuer, DocumentReference subject
and attachment url) resolves to an identifier that appears among the
bundle entries — no dangling references. -/
theorem claim_C2 :
    (∀ (inp : AppV1.AppInputs) (b : Fhir.Bundle), AppV1.onBuildBundle inp = some b →
      ∀ e ∈ b.entry, ∀ r ∈ Fhir.refsOf e.resource,
        ∃ e2 ∈ b.entry, r = "urn:uuid:" ++ e2.resource.id) ∧
    (∀ (inp : App2.Inputs2) (b : Fhir.Bundle), App2.buildBundle inp = some b →
      ∀ e ∈ b.entry, ∀ r ∈ Fhir.refsOf e.resource,
        ∃ e2 ∈ b.entry, r = "urn:uuid:" ++ e2.resource.id) := by
  constructor
  · intro inp b h e he r hr
    rw [onBuild_some h] at he ⊢
    exact appRefs_resolve inp e he r hr
  · intro inp b h e he r hr
    obtain ⟨idx, selPatient, -, -, rfl⟩ := buildBundle2_some h
    exact entries2_refs_resolve inp selPatient e he r hr

/-- Witness for C2: the conclusion instantiated at the two sample
builds. -/
theorem claim_C2_witness :
    (∀ e ∈ (AppV1.appBundle sampleAppInputs).entry, ∀ r ∈ Fhir.refsOf e.resource,
      ∃ e2 ∈ (AppV1.appBundle sampleAppInputs).entry, r = "urn:uuid:" ++ e2.resource.id) ∧
    (∀ e ∈ sampleBundle2.entry, ∀ r ∈ Fhir.refsOf e.resource,
      ∃ e2 ∈ sampleBundle2.entry, r = "urn:uuid:" ++ e2.resource.id) :=
  ⟨claim_C2.1 sampleAppInputs (AppV1.appBundle sampleAppInputs) sampleApp_build,
   claim_C2.2 sampleInputs2 sampleBundle2 sample2_build⟩

theorem toFixed2_eval (q : ℚ) (n : ℤ) (h1 : ¬ q < 0) (h2 : ⌊100 * q + 1 / 2⌋ = n) :
    toFixed2 q = (n : ℚ) / 100 := by
  unfold toFixed2 toFixed2Int
  rw [if_neg h1, h2]

theorem toFixed2Str_eval (q : ℚ) (n : ℕ) (h1 : ¬ q < 0) (h2 : ⌊100 * q + 1 / 2⌋ = (n : ℤ)) :
    toFixed2Str q = String.mk (natRepr (n / 100) ++
      '.' :: [digChar (n % 100 / 10), digChar (n % 100 % 10)]) := by
  unfold toFixed2Str
  rw [if_neg h1, toFixedNN_eq, h2]
  simp

theorem floor_quarter : ⌊100 * (1 / 4 : ℚ) + 1 / 2⌋ = (25 : ℤ) := by
  rw [Int.floor_eq_iff]
  norm_num

theorem floor_eighth : ⌊100 * (1 / 8 : ℚ) + 1 / 2⌋ = (13 : ℤ) := by
  rw [Int.floor_eq_iff]
  norm_num

theorem floor_three_eighths : ⌊100 * (3 / 8 : ℚ) + 1 / 2⌋ = (38 : ℤ) := by
  rw [Int.floor_eq_iff]
  norm_num

theorem natRepr_small (n : ℕ) (h : n < 10) : natRepr n = [digChar n] := by
  unfold natRepr natDigitsLE
  rw [dif_pos h]
  rfl

theorem str_quarter : toFixed2Str (1 / 4 : ℚ) = "0.25" := by
  rw [toFixed2Str_eval (1 / 4) 25 (by norm_num) floor_quarter]
  show String.mk (natRepr 0 ++ '.' :: [digChar 2, digChar 5]) = "0.25"
  rw [natRepr_small 0 (by norm_num)]
  rfl

theorem str_eighth : toFixed2Str (1 / 8 : ℚ) = "0.13" := by
  rw [toFixed2Str_eval (1 / 8) 13 (by norm_num) floor_eighth]
  show String.mk (natRepr 0 ++ '.' :: [digChar 1, digChar 3]) = "0.13"
  rw [natRepr_small 0 (by norm_num)]
  rfl

theorem str_three_eighths : toFixed2Str (3 / 8 : ℚ) = "0.38" := by
  rw [toFixed2Str_eval (3 / 8) 38 (by norm_num) floor_three_eighths]
  show String.mk (natRepr 0 ++ '.' :: [digChar 3, digChar 8]) = "0.38"
  rw [natRepr_small 0 (by norm_num)]
  rfl

theorem ce_autoNet : App2.autoNet ceInputs.lineItems = 1 / 4 := by
  show App2.autoNet [ceLineItem] = 1 / 4
  norm_num [App2.autoNet, App2.lineBase, ceLineItem]

theorem ce_autoTax : App2.autoTax ceInputs.lineItems = 1 / 8 := by
  show App2.autoTax [ceLineItem] = 1 / 8
  norm_num [App2.autoTax, App2.lineTax, App2.lineBase, ceLineItem]

theorem ce_totals_auto :
    (ceInputs.totalNet, ceInputs.totalTax, ceInputs.totalGross) =
      App2.autoTotalsStrings ceInputs.lineItems := by
  unfold App2.autoTotalsStrings
  rw [ce_autoNet, ce_autoTax]
  rw [show (1 / 4 + 1 / 8 : ℚ) = 3 / 8 by norm_num]
  rw [str_quarter, str_eighth, str_three_eighths]
  rfl

/-- C3 (amended): with no override supplied (the three totals fields
holding exactly the auto-computed strings), the reconciled figures are
`net = round(Σ qᵢ·pᵢ, 2)`, `tax = round(Σ qᵢ·pᵢ·rᵢ, 2)` and
`gross = round(Σ qᵢ·pᵢ + Σ qᵢ·pᵢ·rᵢ, 2)` — each figure rounded to two
decimals independently, so `gross` is the rounding of the unrounded
sum rather than `net + tax`; the Invoice record's `totalNet` and
`totalGross` carry `net` and `gross`.  In the `App.js` variant (no tax
rates), `totalNet` and `totalGross` both carry
`round(Σ qᵢ·pᵢ, 2)`. -/
theorem claim_C3 :
    (∀ inp : AppV1.AppInputs,
      (AppV1.buildInvoiceResource inp).totalNet =
        some ⟨.fin (toFixed2 (AppV1.invoiceTotal inp)), "INR"⟩ ∧
      (AppV1.buildInvoiceResource inp).totalGross =
        some ⟨.fin (toFixed2 (AppV1.invoiceTotal inp)), "INR"⟩) ∧
    (∀ (inp : App2.Inputs2) (selPatient : Patient),
      (inp.totalNet, inp.totalTax, inp.totalGross) = App2.autoTotalsStrings inp.lineItems →
      App2.finalNet inp = .fin (toFixed2 (App2.autoNet inp.lineItems)) ∧
      App2.finalTax inp = .fin (toFixed2 (App2.autoTax inp.lineItems)) ∧
      App2.finalGross inp =
        .fin (toFixed2 (App2.autoNet inp.lineItems + App2.autoTax inp.lineItems)) ∧
      (App2.invoiceResource inp selPatient).totalNet =
        some ⟨.fin (toFixed2 (App2.autoNet inp.lineItems)), "INR"⟩ ∧
      (App2.invoiceResource inp selPatient).totalGross =
        some ⟨.fin (toFixed2 (App2.autoNet inp.lineItems + App2.autoTax inp.lineItems)), "INR"⟩) := by
  constructor
  · intro inp
    exact ⟨rfl, rfl⟩
  · intro inp selPatient h
    obtain ⟨h1, h2, h3⟩ : inp.totalNet = toFixed2Str (App2.autoNet inp.lineItems) ∧
        inp.totalTax = toFixed2Str (App2.autoTax inp.lineItems) ∧
        inp.totalGross = toFixed2Str (App2.autoNet inp.lineItems + App2.autoTax inp.lineItems) := by
      unfold App2.autoTotalsStrings at h
      exact ⟨congrArg (fun t => t.1) h, congrArg (fun t => t.2.1) h,
        congrArg (fun t => t.2.2) h⟩
    have hN : App2.finalNet inp = .fin (toFixed2 (App2.autoNet inp.lineItems)) := by
      unfold App2.finalNet
      rw [h1, reconcileFigure_toFixed2Str]
    have hT : App2.finalTax inp = .fin (toFixed2 (App2.autoTax inp.lineItems)) := by
      unfold App2.finalTax
      rw [h2, reconcileFigure_toFixed2Str]
    have hG : App2.finalGross inp =
        .fin (toFixed2 (App2.autoNet inp.lineItems + App2.autoTax inp.lineItems)) := by
      unfold App2.finalGross
      rw [h3, reconcileFigure_toFixed2Str]
    refine ⟨hN, hT, hG, ?_, ?_⟩
    · have h0 : (App2.invoiceResource inp selPatient).totalNet =
          some ⟨jsFix2 (App2.finalNet inp), "INR"⟩ := rfl
      rw [h0, hN]
      simp [jsFix2, toFixed2_idem]
    · have h0 : (App2.invoiceResource inp selPatient).totalGross =
          some ⟨jsFix2 (App2.finalGross inp), "INR"⟩ := rfl
      rw [h0, hG]
      simp [jsFix2, toFixed2_idem]

/-- Counterexample to C3 as stated: one line with quantity 1, unit
price 0.25 and tax rate 50 percent, totals fields holding the
auto-computed strings.  The claim predicts the tax figure
`1 · 0.25 · 0.5 = 0.125` and `gross = net + tax = 0.375`; the code
produces `0.13` and `0.38`. -/
theorem claim_C3_counterexample :
    App2.finalTax ceInputs = .fin (13 / 100) ∧
    (13 / 100 : ℚ) ≠ 1 * (1 / 4) * (50 / 100) ∧
    App2.finalGross ceInputs = .fin (38 / 100) ∧
    (38 / 100 : ℚ) ≠ toFixed2 (1 * (1 / 4)) + 1 * (1 / 4) * (50 / 100) := by
  refine ⟨?_, by norm_num, ?_, ?_⟩
  · show App2.reconcileFigure "0.13" (App2.computedTax ceInputs.lineItems) = .fin (13 / 100)
    rw [← str_eighth, reconcileFigure_toFixed2Str,
      toFixed2_eval (1 / 8) 13 (by norm_num) floor_eighth]
    norm_num
  · show App2.reconcileFigure "0.38" (App2.computedGross ceInputs.lineItems) = .fin (38 / 100)
    rw [← str_three_eighths, reconcileFigure_toFixed2Str,
      toFixed2_eval (3 / 8) 38 (by norm_num) floor_three_eighths]
    norm_num
  · rw [toFixed2_eval (1 * (1 / 4)) 25 (by norm_num) (by rw [show (100 * (1 * (1 / 4) : ℚ) + 1 / 2) = 100 * (1 / 4 : ℚ) + 1 / 2 by norm_num]; exact floor_quarter)]
    norm_num

/-- Witness for C3 (amended): the concrete single-line input with the
auto-computed totals strings satisfies the hypothesis and the
conclusion. -/
theorem claim_C3_witness :
    App2.finalNet ceInputs = .fin (toFixed2 (App2.autoNet ceInputs.lineItems)) ∧
    App2.finalTax ceInputs = .fin (toFixed2 (App2.autoTax ceInputs.lineItems)) ∧
    App2.finalGross ceInputs =
      .fin (toFixed2 (App2.autoNet ceInputs.lineItems + App2.autoTax ceInputs.lineItems)) ∧
    (App2.invoiceResource ceInputs samplePatient).totalNet =
      some ⟨.fin (toFixed2 (App2.autoNet ceInputs.lineItems)), "INR"⟩ ∧
    (App2.invoiceResource ceInputs samplePatient).totalGross =
      some ⟨.fin (toFixed2 (App2.autoNet ceInputs.lineItems + App2.autoTax ceInputs.lineItems)),
        "INR"⟩ :=
  claim_C3.2 ceInputs samplePatient ce_totals_auto

/-- C4 (amended): each of the three totals reconciliations uses the
override string iff it is non-empty and does not convert to `NaN`: an
empty override or one converting to `NaN` falls back to the computed
figure (rounded to two decimals), a finite-parsing override is used,
and an override parsing to an infinity IS used (contrary to the
finite-only reading); the three figures are reconciled independently. -/
theorem claim_C4 :
    (∀ (c : ℚ) (o : String), jsNumber o = JsNum.nan →
      App2.reconcileFigure o c = .fin (toFixed2 c)) ∧
    (∀ c : ℚ, App2.reconcileFigure "" c = .fin (toFixed2 c)) ∧
    (∀ (c : ℚ) (o : String) (q : ℚ), o ≠ "" → jsNumber o = .fin q →
      App2.reconcileFigure o c = .fin q) ∧
    (∀ (c : ℚ) (o : String) (bneg : Bool), o ≠ "" → jsNumber o = .inf bneg →
      App2.reconcileFigure o c = .inf bneg) ∧
    (∀ (oN oT oG oT2 oG2 : String) (cN cT cG : ℚ),
      (App2.reconcileTotals oN oT oG cN cT cG).1 =
        (App2.reconcileTotals oN oT2 oG2 cN cT cG).1) := by
  refine ⟨?_, ?_, ?_, ?_, ?_⟩
  · intro c o h
    unfold App2.reconcileFigure
    rw [if_neg (fun hand => hand.2 h)]
  · intro c
    unfold App2.reconcileFigure
    rw [if_neg (fun hand => hand.1 rfl)]
  · intro c o q ho hq
    unfold App2.reconcileFigure
    rw [if_pos ⟨ho, by rw [hq]; simp⟩, hq]
  · intro c o bneg ho hq
    unfold App2.reconcileFigure
    rw [if_pos ⟨ho, by rw [hq]; simp⟩, hq]
  · intro oN oT oG oT2 oG2 cN cT cG
    rfl

/-- Counterexample to C4 as stated: the override string `Infinity`
does not parse as a finite number, yet the code uses it instead of the
computed figure. -/
theorem claim_C4_counterexample :
    App2.reconcileFigure "Infinity" 5 = .inf false ∧
    JsNum.inf false ≠ .fin 5 ∧ JsNum.inf false ≠ .fin (toFixed2 5) := by
  refine ⟨?_, by simp, by simp⟩
  unfold App2.reconcileFigure
  rw [if_pos ⟨by simp, by decide⟩]
  decide

/-- Witness for C4: a non-numeric override falls back to the computed
figure. -/
theorem claim_C4_witness :
    App2.reconcileFigure "abc" 7 = .fin (toFixed2 7) :=
  claim_C4.1 7 "abc" (by decide)

/-- C5 (amended): the placeholder synthesis is specific to the
`App.js` variant: there, a build with zero supplied files yields
exactly one Binary (the fixed placeholder PDF payload, MIME type
`application/pdf`) and exactly one DocumentReference titled
`placeholder.pdf` whose attachment url points at that Binary.  The
`invoice-record-2.js` variant synthesizes nothing: with zero stored
attachments its bundle contains no Binary and no DocumentReference
entry, so the attachment set is empty at serialization time. -/
theorem claim_C5 :
    (∀ (inp : AppV1.AppInputs) (b : Fhir.Bundle), inp.files = [] →
      AppV1.onBuildBundle inp = some b →
      b.entry.filter (fun e => e.resource.resourceType == "Binary") =
        [⟨Fhir.urn (AppV1.binId inp 0), AppV1.buildBinary inp 0⟩] ∧
      (AppV1.buildBinary inp 0).data = some AppV1.PLACEHOLDER_PDF_B64 ∧
      (AppV1.buildBinary inp 0).contentType = some "application/pdf" ∧
      b.entry.filter (fun e => e.resource.resourceType == "DocumentReference") =
        [⟨Fhir.urn (AppV1.docId inp 0), AppV1.buildDocRef inp 0⟩] ∧
      (AppV1.buildDocRef inp 0).attachmentTitle = some "placeholder.pdf" ∧
      (AppV1.buildDocRef inp 0).attachmentUrl = some (Fhir.urn (AppV1.binId inp 0))) ∧
    (∀ (inp : App2.Inputs2) (b : Fhir.Bundle), inp.attachments = [] →
      App2.buildBundle inp = some b →
      b.entry.filter (fun e => e.resource.resourceType == "Binary") = [] ∧
      b.entry.filter (fun e => e.resource.resourceType == "DocumentReference") = []) := by
  constructor
  · intro inp b hf h
    rw [onBuild_some h]
    have h0 : inp.files[0]? = none := by rw [hf]; rfl
    refine ⟨appEntries_filter_binary_nofiles inp hf, ?_, ?_,
      appEntries_filter_docref_nofiles inp hf, ?_, ?_⟩
    · simp [AppV1.buildBinary, AppV1.fileData, h0]
    · simp [AppV1.buildBinary, AppV1.fileContentType, h0]
    · simp [AppV1.buildDocRef, AppV1.fileTitle, h0]
    · rfl
  · intro inp b ha h
    obtain ⟨idx, selPatient, -, -, rfl⟩ := buildBundle2_some h
    exact ⟨entries2_filter_noattach inp selPatient ha "Binary" (Or.inl rfl),
      entries2_filter_noattach inp selPatient ha "DocumentReference" (Or.inr rfl)⟩

/-- Counterexample to C5 as stated: the variant-2 sample build with
zero attachments succeeds yet its bundle carries no placeholder — no
Binary and no DocumentReference entry at all. -/
theorem claim_C5_counterexample :
    sampleInputs2.attachments = [] ∧
    App2.buildBundle sampleInputs2 = some sampleBundle2 ∧
    sampleBundle2.entry.filter (fun e => e.resource.resourceType == "Binary") = [] ∧
    sampleBundle2.entry.filter (fun e => e.resource.resourceType == "DocumentReference") = [] := by
  refine ⟨rfl, sample2_build, ?_, ?_⟩
  · exact entries2_filter_noattach sampleInputs2 samplePatient rfl "Binary" (Or.inl rfl)
  · exact entries2_filter_noattach sampleInputs2 samplePatient rfl "DocumentReference"
      (Or.inr rfl)

/-- Witness for C5 (amended) at the two concrete sample builds. -/
theorem claim_C5_witness :
    ((AppV1.appBundle sampleAppInputs).entry.filter
        (fun e => e.resource.resourceType == "Binary") =
      [⟨Fhir.urn (AppV1.binId sampleAppInputs 0), AppV1.buildBinary sampleAppInputs 0⟩] ∧
      (AppV1.buildBinary sampleAppInputs 0).data = some AppV1.PLACEHOLDER_PDF_B64 ∧
      (AppV1.buildBinary sampleAppInputs 0).contentType = some "application/pdf" ∧
      (AppV1.appBundle sampleAppInputs).entry.filter
          (fun e => e.resource.resourceType == "DocumentReference") =
        [⟨Fhir.urn (AppV1.docId sampleAppInputs 0), AppV1.buildDocRef sampleAppInputs 0⟩] ∧
      (AppV1.buildDocRef sampleAppInputs 0).attachmentTitle = some "placeholder.pdf" ∧
      (AppV1.buildDocRef sampleAppInputs 0).attachmentUrl =
        some (Fhir.urn (AppV1.binId sampleAppInputs 0))) ∧
    (sampleBundle2.entry.filter (fun e => e.resource.resourceType == "Binary") = [] ∧
      sampleBundle2.entry.filter
        (fun e => e.resource.resourceType == "DocumentReference") = []) :=
  ⟨claim_C5.1 sampleAppInputs (AppV1.appBundle sampleAppInputs) rfl sampleApp_build,
    claim_C5.2 sampleInputs2 sampleBundle2 rfl sample2_build⟩

theorem isIso_chars (cs : List Char) (h : isIsoDateShape cs = true) :
    ∀ c ∈ cs, c.isDigit = true ∨ c = '-' := by
  rcases cs with _ | ⟨a, _ | ⟨b, _ | ⟨c0, _ | ⟨d, _ | ⟨e, _ | ⟨f, _ | ⟨g, _ | ⟨h8, _ | ⟨i, _ | ⟨j, _ | ⟨k, t⟩⟩⟩⟩⟩⟩⟩⟩⟩⟩⟩
  case cons.cons.cons.cons.cons.cons.cons.cons.cons.cons.nil =>
    simp only [isIsoDateShape, Bool.and_eq_true, beq_iff_eq] at h
    obtain ⟨⟨⟨⟨⟨⟨⟨⟨⟨ha, hb⟩, hc0⟩, hd⟩, he⟩, hf⟩, hg⟩, hh8⟩, hi⟩, hj⟩ := h
    intro c hc
    simp only [List.mem_cons, List.not_mem_nil, or_false] at hc
    rcases hc with rfl | rfl | rfl | rfl | rfl | rfl | rfl | rfl | rfl | rfl
    · exact Or.inl ha
    · exact Or.inl hb
    · exact Or.inl hc0
    · exact Or.inl hd
    · exact Or.inr he
    · exact Or.inl hf
    · exact Or.inl hg
    · exact Or.inr hh8
    · exact Or.inl hi
    · exact Or.inl hj
  all_goals simp [isIsoDateShape] at h

theorem isIso_trim (s : String) (h : isIsoDateShape s.toList = true) :
    jsTrim s.toList = s.toList :=
  jsTrim_eq_self _ (fun c hc => by
    rcases isIso_chars _ h c hc with hd | rfl
    · exact isWs_eq_false_of_isDigit hd
    · decide)

theorem ddmmyyyyToISO_nosep (s : String) (hne : s ≠ "")
    (hiso : isIsoDateShape (jsTrim s.toList) = false)
    (hm1 : '-' ∉ jsTrim s.toList) (hm2 : '/' ∉ jsTrim s.toList) :
    AppV1.ddmmyyyyToISO s = none := by
  unfold AppV1.ddmmyyyyToISO AppV1.ddmmSplit
  rw [if_neg hne, if_neg (by rw [hiso]; simp)]
  have hc1 : (jsTrim s.toList).contains '-' = false := by
    simp [List.contains]
    exact hm1
  have hc2 : (jsTrim s.toList).contains '/' = false := by
    simp [List.contains]
    exact hm2
  rw [hc1, hc2]
  rfl

/-- C6 (amended): the `invoice-record-2.js` normalizer (`toFhirDate`)
behaves as claimed: ISO-shaped input passes through unchanged,
day-month-year input with either separator is rearranged to
year-month-day with zero-padding and a 2-digit year mapped to the
1900s, and anything else defers to the generic date parse (so with a
failing generic parse, e.g. on `not-a-date`, the result is
`undefined`).  The `App.js` normalizer (`ddmmyyyyToISO`) shares only
the ISO passthrough and the rearrangement: it copies the third dash
separated group verbatim as the year (no 1900s mapping, and any three
non-empty groups are rearranged, digits or not), and it has no
generic-date fallback — input whose trimmed form has neither
separator yields `undefined` directly. -/
theorem claim_C6 :
    (∀ (g : String → Option String) (s : String), s ≠ "" → isIsoDateShape s.toList = true →
      AppV1.ddmmyyyyToISO s = some s ∧ App2.toFhirDate g s = some s) ∧
    (∀ (g : String → Option String) (d1 d2 d3 : List Char) (s1 s2 : Char),
      s1 = '-' ∨ s1 = '/' → s2 = '-' ∨ s2 = '/' →
      1 ≤ d1.length → d1.length ≤ 2 → 1 ≤ d2.length → d2.length ≤ 2 →
      2 ≤ d3.length → d3.length ≤ 4 →
      (∀ c ∈ d1, c.isDigit = true) → (∀ c ∈ d2, c.isDigit = true) →
      (∀ c ∈ d3, c.isDigit = true) →
      isIsoDateShape (d1 ++ s1 :: (d2 ++ s2 :: d3)) = false →
      App2.toFhirDate g (String.mk (d1 ++ s1 :: (d2 ++ s2 :: d3))) =
        some (String.mk ((if d3.length = 2 then '1' :: '9' :: d3 else d3) ++
          '-' :: padStart2 d2 ++ '-' :: padStart2 d1))) ∧
    (∀ d1 d2 d3 : List Char, d1 ≠ [] → d2 ≠ [] → d3 ≠ [] →
      (∀ c ∈ d1, c.isDigit = true) → (∀ c ∈ d2, c.isDigit = true) →
      (∀ c ∈ d3, c.isDigit = true) →
      isIsoDateShape (d1 ++ '-' :: (d2 ++ '-' :: d3)) = false →
      AppV1.ddmmyyyyToISO (String.mk (d1 ++ '-' :: (d2 ++ '-' :: d3))) =
        some (String.mk (d3 ++ '-' :: padStart2 d2 ++ '-' :: padStart2 d1))) ∧
    (∀ (g : String → Option String) (s : String), s ≠ "" →
      isIsoDateShape s.toList = false → App2.matchDmy s.toList = none →
      App2.toFhirDate g s = g s) ∧
    (∀ s : String, s ≠ "" → isIsoDateShape (jsTrim s.toList) = false →
      '-' ∉ jsTrim s.toList → '/' ∉ jsTrim s.toList →
      AppV1.ddmmyyyyToISO s = none) := by
  refine ⟨?_, ?_, ?_, ?_, ?_⟩
  · intro g s hne hiso
    constructor
    · unfold AppV1.ddmmyyyyToISO
      rw [if_neg hne, isIso_trim s hiso, if_pos hiso]
      rfl
    · exact toFhirDate_iso g s hiso
  · intro g d1 d2 d3 s1 s2 hs1 hs2 l1a l1b l2a l2b l3a l3b g1 g2 g3 hiso
    exact toFhirDate_parts g d1 d2 d3 s1 s2 hs1 hs2 l1a l1b l2a l2b l3a l3b g1 g2 g3 hiso
  · intro d1 d2 d3 n1 n2 n3 g1 g2 g3 hiso
    exact ddmmyyyyToISO_parts d1 d2 d3 n1 n2 n3 g1 g2 g3 hiso
  · intro g s hne hiso hm
    exact toFhirDate_fallback g s hne hiso hm
  · intro s hne hiso hm1 hm2
    exact ddmmyyyyToISO_nosep s hne hiso hm1 hm2

/-- Counterexample to C6 as stated: in the `App.js` variant the input
`not-a-date` is not mapped to `undefined` but rearranged to
`date-0a-not`, and the 2-digit year of `05-08-90` is kept verbatim
(`90-08-05`) instead of being mapped to the 1900s. -/
theorem claim_C6_counterexample :
    AppV1.ddmmyyyyToISO "not-a-date" = some "date-0a-not" ∧
    (some "date-0a-not" : Option String) ≠ none ∧
    AppV1.ddmmyyyyToISO "05-08-90" = some "90-08-05" ∧
    ("90-08-05" : String) ≠ "1990-08-05" := by
  refine ⟨by decide, by simp, by decide, by decide⟩

/-- Witness for C6 (amended): concrete runs of both normalizers — the
claim's own examples plus the 2-digit-year widening and the failing
generic parse. -/
theorem claim_C6_witness :
    (AppV1.ddmmyyyyToISO "2024-01-01" = some "2024-01-01" ∧
      App2.toFhirDate (fun _ => none) "2024-01-01" = some "2024-01-01") ∧
    App2.toFhirDate (fun _ => none) "05-08-1990" = some "1990-08-05" ∧
    AppV1.ddmmyyyyToISO "05-08-1990" = some "1990-08-05" ∧
    App2.toFhirDate (fun _ => none) "05-08-90" = some "1990-08-05" ∧
    App2.toFhirDate (fun _ => none) "not-a-date" = none := by
  refine ⟨claim_C6.1 (fun _ => none) "2024-01-01" (by decide) (by decide), ?_, ?_, ?_, ?_⟩
  · exact claim_C6.2.1 (fun _ => none) ['0', '5'] ['0', '8'] ['1', '9', '9', '0'] '-' '-'
      (Or.inl rfl) (Or.inl rfl) (by decide) (by decide) (by decide) (by decide)
      (by decide) (by decide) (by decide) (by decide) (by decide) (by decide)
  · exact claim_C6.2.2.1 ['0', '5'] ['0', '8'] ['1', '9', '9', '0']
      (by decide) (by decide) (by decide) (by decide) (by decide) (by decide) (by decide)
  · exact claim_C6.2.1 (fun _ => none) ['0', '5'] ['0', '8'] ['9', '0'] '-' '-'
      (Or.inl rfl) (Or.inl rfl) (by decide) (by decide) (by decide) (by decide)
      (by decide) (by decide) (by decide) (by decide) (by decide) (by decide)
  · exact claim_C6.2.2.2.1 (fun _ => none) "not-a-date" (by decide) (by decide) (by decide)

/-- C7 (amended): the primary-first ordering and duplicate
preservation hold only in the `App.js` variant: there the normalized
list is sorted by the primary-first / lexical-tie comparator and is a
permutation of the coerced source entries (falsy and empty entries
dropped, duplicate values preserved), and the claim's example yields
the order `b`, `a`.  The `invoice-record-2.js` variant does NOT sort —
it keeps the source order (the selected reference address is merely
prepended) so the same example yields `a`, `b` — and it DOES
deduplicate by value: its output never contains a duplicate. -/
theorem claim_C7 :
    (∀ p : Patient, List.Sorted AppV1.abhaLE (AppV1.normalizeAbhaAddresses p)) ∧
    (∀ p : Patient, (AppV1.normalizeAbhaAddresses p).Perm
      ((AppV1.rawAbhaList p).filterMap AppV1.coerceAbha)) ∧
    (AppV1.normalizeAbhaAddresses examplePatient).map (fun a => a.value) = ["b", "a"] ∧
    (∀ p : Option Patient, (App2.getAbhaAddressesForPatient p).Nodup) ∧
    App2.getAbhaAddressesForPatient (some examplePatient) = ["a", "b"] := by
  refine ⟨?_, ?_, ?_, ?_, ?_⟩
  · intro p
    exact List.sorted_insertionSort AppV1.abhaLE _
  · intro p
    exact List.perm_insertionSort AppV1.abhaLE _
  · decide
  · intro p
    match p with
    | none => exact List.nodup_nil
    | some pt => exact dedupFirst_nodup _
  · decide

/-- Counterexample to C7 as stated: on the claim's own example the
`invoice-record-2.js` variant returns source order `a`, `b` (the
primary-marked `b` is not moved first), and a duplicated source value
is collapsed to one occurrence there while the `App.js` variant keeps
both. -/
theorem claim_C7_counterexample :
    App2.getAbhaAddressesForPatient (some examplePatient) = ["a", "b"] ∧
    (["a", "b"] : List String) ≠ ["b", "a"] ∧
    App2.getAbhaAddressesForPatient (some dupPatient) = ["x"] ∧
    (["x"] : List String) ≠ ["x", "x"] ∧
    (AppV1.normalizeAbhaAddresses dupPatient).length = 2 := by
  refine ⟨by decide, by decide, by decide, by decide, ?_⟩
  exact (List.perm_insertionSort AppV1.abhaLE _).length_eq.trans (by decide)

/-- C8: with no selected patient and with neither a billable line
(quantity times unit price positive) nor any uploaded file, the
pre-build validator reports both the missing-patient message and the
missing-line-or-document message in its single error list, and the
build is refused: `onBuildBundle` produces no bundle. -/
theorem claim_C8 :
    ∀ inp : AppV1.AppInputs, inp.selectedPatient = none →
      (∀ l ∈ inp.lines, ¬ 0 < l.quantity * l.unitPrice) → inp.files = [] →
      "Select a patient (required)." ∈ AppV1.validateBeforeBuild inp ∧
      "Add at least one invoice line with amount > 0, or upload at least one document." ∈
        AppV1.validateBeforeBuild inp ∧
      AppV1.onBuildBundle inp = none := by
  intro inp hpat hline hfile
  have hany : (inp.lines.any fun l => decide (0 < l.quantity * l.unitPrice)) = false := by
    simp only [List.any_eq_false, decide_eq_true_eq]
    exact hline
  have hcond : ¬((inp.lines.any fun l => decide (0 < l.quantity * l.unitPrice)) = true ∨
      inp.files ≠ []) := by
    rw [hany]
    simp [hfile]
  refine ⟨?_, ?_, ?_⟩
  · unfold AppV1.validateBeforeBuild
    rw [hpat]
    simp
  · unfold AppV1.validateBeforeBuild
    rw [if_pos hcond]
    simp
  · have hmem : "Select a patient (required)." ∈ AppV1.validateBeforeBuild inp := by
      unfold AppV1.validateBeforeBuild
      rw [hpat]
      simp
    unfold AppV1.onBuildBundle
    rcases hv : AppV1.validateBeforeBuild inp with _ | ⟨m, ms⟩
    · rw [hv] at hmem
      simp at hmem
    · rfl

/-- Witness for C8: the concrete invalid record with no patient, one
zero-amount line and no files. -/
theorem claim_C8_witness :
    "Select a patient (required)." ∈ AppV1.validateBeforeBuild emptyAppInputs ∧
    "Add at least one invoice line with amount > 0, or upload at least one document." ∈
      AppV1.validateBeforeBuild emptyAppInputs ∧
    AppV1.onBuildBundle emptyAppInputs = none :=
  claim_C8 emptyAppInputs rfl
    (by
      intro l hl
      have he : emptyAppInputs.lines = [⟨"", 0, 0⟩] := rfl
      rw [he, List.mem_singleton] at hl
      subst hl
      show ¬ (0 : ℚ) < 0 * 0
      norm_num) rfl

/-- C9: in the `invoice-record-2.js` variant the line-item list never
empties: every state reachable from the initial state by the
add / update / remove handlers keeps at least one line, and
`removeLineItem` returns a one-element state unchanged. -/
theorem claim_C9 :
    (∀ s : App2.ItemsState, App2.Reachable s → 1 ≤ s.items.length) ∧
    (∀ (x : String) (s : App2.ItemsState), s.items.length = 1 →
      App2.removeLineItem x s = s) := by
  constructor
  · intro s h
    exact (reachable_invariant s h).1
  · exact fun x s h => removeLineItem_singleton x s h

/-- Witness for C9: removing the only line of the initial state leaves
it unchanged and non-empty. -/
theorem claim_C9_witness :
    1 ≤ (App2.removeLineItem "x" App2.initialState).items.length ∧
    App2.removeLineItem "x" App2.initialState = App2.initialState :=
  ⟨claim_C9.1 _ (App2.Reachable.remove "x" App2.Reachable.init),
    claim_C9.2 "x" App2.initialState rfl⟩

/-- C10: neither normalizer validates day or month ranges: the
separator-shaped input `99-99-2020` is rearranged to `2020-99-99` by
both variants (for the second variant, whatever the generic date
parser would say). -/
theorem claim_C10 :
    ∀ g : String → Option String,
      AppV1.ddmmyyyyToISO "99-99-2020" = some "2020-99-99" ∧
      App2.toFhirDate g "99-99-2020" = some "2020-99-99" := by
  intro g
  refine ⟨by decide, ?_⟩
  exact toFhirDate_parts g ['9', '9'] ['9', '9'] ['2', '0', '2', '0'] '-' '-'
    (Or.inl rfl) (Or.inl rfl) (by decide) (by decide) (by decide) (by decide)
    (by decide) (by decide) (by decide) (by decide) (by decide) (by decide)
